import Mathlib

/-!
Verification of the instaScraper extraction pipeline.

The repository is an Apify actor that extracts structured metadata
(username, audio track, like/view/comment counts, caption, title) from an
Instagram reel page.  The extraction logic lives in `requestHandler` and in
the numeric normalizer `parseMetric`.  The repository contains three
near-identical variants of the script; the final variant (the second script
of the unnamed source file, whose `requestHandler` spans the redirect check,
username, metrics, audio and caption blocks and whose `parseMetric` handles
the `B` suffix and empty input) is embedded here as the canonical handler.
Where a claim depends on an earlier variant (the internal-API metric
strategy, the caption/title derivation of the earlier scripts), that code is
embedded separately.

Modelling conventions:
* JavaScript numbers are modelled as exact rationals (`ℚ`); `Math.round`
  is `roundHalfUp` (half away from zero toward +∞, which is what
  `Math.round` does for the non-negative values that occur here).
* Strings are Lean `String`s; `String.length` counts code points where
  JavaScript counts UTF-16 units (the difference only matters for astral
  characters, which the claims do not exercise).
* The regexes of the source are embedded as executable backtracking
  matchers (`Matcher`), with candidates ordered the way a JavaScript
  engine explores them (greedy quantifiers longest-first, lazy
  quantifiers shortest-first, leftmost match wins).
* The DOM is opaque: a `Doc` carries the final URL, the page text and a
  map from selector strings to element lists; element text/href readers
  are total.  Runtime DOM exceptions are modelled by the `Faults` record:
  a set flag means the corresponding `try` block threw before assigning.
-/

/-- `\d` of the source regexes: an ASCII decimal digit. -/
def isDig (c : Char) : Bool := 48 ≤ c.toNat && c.toNat ≤ 57

/-- `\s` of the source regexes (the whitespace classes exercised here:
space, tab, LF, VT, FF, CR, NBSP). -/
def isWsC (c : Char) : Bool :=
  c.toNat = 32 || c.toNat = 9 || c.toNat = 10 || c.toNat = 11 ||
  c.toNat = 12 || c.toNat = 13 || c.toNat = 160

/-- `String.prototype.toUpperCase` on the ASCII range. -/
def upC (c : Char) : Char :=
  if 97 ≤ c.toNat ∧ c.toNat ≤ 122 then Char.ofNat (c.toNat - 32) else c

/-- `String.prototype.toLowerCase` on the ASCII range. -/
def lowC (c : Char) : Char :=
  if 65 ≤ c.toNat ∧ c.toNat ≤ 90 then Char.ofNat (c.toNat + 32) else c

/-- Is `needle` a prefix of the second list? -/
def prefixOfB : List Char → List Char → Bool
  | [], _ => true
  | _ :: _, [] => false
  | a :: as, b :: bs => a == b && prefixOfB as bs

/-- `String.prototype.includes`: does `hay` contain `needle` as a
contiguous substring? -/
def hasSub (hay needle : List Char) : Bool :=
  match hay with
  | [] => prefixOfB needle []
  | _ :: t => prefixOfB needle hay || hasSub t needle

/-- `includes` on `String`. -/
def hasSubS (hay needle : String) : Bool := hasSub hay.data needle.data

/-- `String.prototype.trim` (drop leading and trailing whitespace). -/
def trimChars (l : List Char) : List Char :=
  ((l.dropWhile isWsC).reverse.dropWhile isWsC).reverse

/-- `trim` on `String`. -/
def trimS (s : String) : String := ⟨trimChars s.data⟩

/-- `toLowerCase` on `String`. -/
def lowS (s : String) : String := ⟨s.data.map lowC⟩

/-- `String.prototype.split('\n')`: split on newline characters. -/
def splitNl : List Char → List (List Char)
  | [] => [[]]
  | c :: t =>
    if c = '\n' then [] :: splitNl t
    else
      match splitNl t with
      | h :: rest => (c :: h) :: rest
      | [] => [[c]]

/-- The numeral denoted by a list of ASCII digit characters, most
significant first (the integer part of `parseFloat`). -/
def natOfDigits (l : List Char) : ℕ :=
  l.foldl (fun a c => 10 * a + (c.toNat - 48)) 0

/-- `parseFloat` on a numeral of the shape `digits` or `digits.digits`,
represented exactly as a pair `(mantissa, scale)` denoting
`mantissa / 10 ^ scale` (see `mantissaScale_spec`). -/
def mantissaScale (l : List Char) : ℕ × ℕ :=
  let ip := l.takeWhile (fun c => !(c == '.'))
  let fp := (l.dropWhile (fun c => !(c == '.'))).drop 1
  (natOfDigits ip * 10 ^ fp.length + natOfDigits fp, fp.length)

/-- `Math.round (a / b)` for natural `a` and positive natural `b`: round
half toward positive infinity, i.e. `⌊a / b + 1/2⌋`, which for
non-negative values is the floor division `(2a + b) / (2b)`
(see `roundHalfUpN_eq_floor`). -/
def roundHalfUpN (a b : ℕ) : ℕ := (2 * a + b) / (2 * b)

/-- The tail of the first match of `/(\d+(?:[.,]\d+)?)/` when the scan
stands on a digit: the maximal digit run, optionally followed by a single
`.` or `,` separator and a further digit run. -/
def numTail (l : List Char) : List Char :=
  let ds := l.takeWhile isDig
  let rest := l.dropWhile isDig
  match rest with
  | c :: r2 =>
    if (c == '.' || c == ',') &&
        (match r2 with | d :: _ => isDig d | [] => false) then
      ds ++ c :: r2.takeWhile isDig
    else ds
  | [] => ds

/-- Leftmost match of `/(\d+(?:[.,]\d+)?)/` in a character list. -/
def firstNumPart : List Char → Option (List Char)
  | [] => none
  | c :: t => if isDig c then some (numTail (c :: t)) else firstNumPart t

/-- `String.prototype.replace(',', '.')`: replace the first comma only. -/
def replFirstComma : List Char → List Char
  | [] => []
  | c :: t => if c == ',' then '.' :: t else c :: replFirstComma t

/-- `value.replace(/[,\s]/g, '').toUpperCase()` of `parseMetric`. -/
def cleanChars (l : List Char) : List Char :=
  (l.filter (fun c => !(c == ',' || isWsC c))).map upC

/-- The magnitude multiplier of `parseMetric`: `B` → billion, else `M` →
million, else `K` → thousand, else 1, each tested by `includes` on the
cleaned uppercased value. -/
def multKMB (cv : List Char) : ℕ :=
  if cv.contains 'B' then 1000000000
  else if cv.contains 'M' then 1000000
  else if cv.contains 'K' then 1000
  else 1

/-- The numeric normalizer `parseMetric` of the final script (the variant
that handles the `B` suffix and empty input), as a natural number: strip
commas and whitespace, uppercase, extract the first numeral (empty
extraction defaulting to `0`), normalize a comma decimal separator, then
scale by the `B`/`M`/`K` magnitude multiplier and round to the nearest
integer.  The numeral is `m / 10^k` exactly, so the scaled value is
`(m * mult) / 10^k`, rounded half-up by `roundHalfUpN`. -/
def parseMetricN (value : String) : ℕ :=
  if value = "" then 0
  else
    let cv := cleanChars value.data
    let np := (firstNumPart cv).getD ['0']
    let nn := replFirstComma np
    let p := mantissaScale nn
    roundHalfUpN (p.1 * multKMB cv) (10 ^ p.2)

/-- `parseMetric` as the JavaScript number (an exact rational) stored in
the output record. -/
def parseMetric (value : String) : ℚ := (parseMetricN value : ℚ)

example : parseMetricN "1.2K" = 1200 := by decide
example : parseMetricN "817,242" = 817242 := by decide
example : parseMetricN "2.5M" = 2500000 := by decide
example : parseMetricN "" = 0 := by decide
example : parseMetricN "3B" = 3000000000 := by decide
example : parseMetricN "1.6" = 2 := by decide
example : parseMetricN "garbage" = 0 := by decide
example : parseMetricN "0.5" = 1 := by decide

/-!
## Regex engine

Backtracking matchers for the concrete regexes of the source.  A matcher
maps an input suffix to the list of possible `(consumed, rest)` splits in
the order a JavaScript engine would try them; the head of the list is the
match the engine commits to at a given start position.
-/

/-- A backtracking matcher: candidate `(consumed, rest)` splits in engine
preference order. -/
abbrev Matcher := List Char → List (List Char × List Char)

/-- Sequencing of matchers (candidate order: outer-first, as a
backtracking engine explores them). -/
def seqM (a b : Matcher) : Matcher := fun l =>
  (a l).flatMap (fun p => (b p.2).map (fun q => (p.1 ++ q.1, q.2)))

/-- Ordered alternation `x|y`. -/
def altM (a b : Matcher) : Matcher := fun l => a l ++ b l

/-- The empty match. -/
def epsM : Matcher := fun l => [([], l)]

/-- A single character satisfying a class predicate. -/
def charM (p : Char → Bool) : Matcher := fun l =>
  match l with
  | [] => []
  | c :: t => if p c then [([c], t)] else []

/-- Greedy `x?`: try the body first, then the empty match. -/
def optM (a : Matcher) : Matcher := altM a epsM

/-- Greedy `x{lo,hi}`: most repetitions first. -/
def repRange (a : Matcher) : ℕ → ℕ → Matcher
  | lo, 0 => if lo = 0 then epsM else fun _ => []
  | lo, hi + 1 => fun l =>
    seqM a (repRange a (lo - 1) hi) l ++ (if lo = 0 then [([], l)] else [])

/-- Greedy `x*` (repetitions bounded by the input length, which a
one-character-or-more body can never exceed). -/
def starM (a : Matcher) : Matcher := fun l => repRange a 0 l.length l

/-- Greedy `x+`. -/
def plusM (a : Matcher) : Matcher := fun l => repRange a 1 l.length l

/-- Lazy `x*?`: fewest repetitions first. -/
def lazyRep (a : Matcher) : ℕ → Matcher
  | 0 => epsM
  | hi + 1 => fun l => ([], l) :: seqM a (lazyRep a hi) l

/-- Lazy `x*?` bounded by input length. -/
def lazyStarM (a : Matcher) : Matcher := fun l => lazyRep a l.length l

/-- A literal character, case-insensitively (`/i` flag); the consumed
character keeps the casing of the input. -/
def ciChar (c : Char) : Matcher := charM (fun x => lowC x = lowC c)

/-- A literal word, case-insensitively. -/
def ciLit (w : String) : Matcher :=
  w.data.foldr (fun c m => seqM (ciChar c) m) epsM

/-- Leftmost match: scan start positions left to right, committing to the
first candidate at the first position that matches. -/
def scanFirst (m : Matcher) : List Char → Option (List Char)
  | [] => ((m []).head?).map (fun p => p.1)
  | l@(_ :: t) =>
    match (m l).head? with
    | some p => some p.1
    | none => scanFirst m t

/-- All matches (the `g` flag): after each match the scan resumes at the
end of the match; `fuel` bounds the recursion (callers pass the input
length plus one, which suffices because every pattern used here consumes
at least one character). -/
def scanAll (m : Matcher) : ℕ → List Char → List (List Char)
  | 0, _ => []
  | _ + 1, [] => []
  | fuel + 1, l@(_ :: t) =>
    match (m l).head? with
    | some (mt, rest) => mt :: scanAll m fuel rest
    | none => scanAll m fuel t

/-!
## The concrete patterns of the final script
-/

/-- `\d` as a matcher. -/
def digitM : Matcher := charM isDig

/-- `\s` as a matcher. -/
def wsM : Matcher := charM isWsC

/-- `\s*`. -/
def wsStar : Matcher := starM wsM

/-- `\s+`. -/
def wsPlus : Matcher := plusM wsM

/-- `\d{1,3}`. -/
def d13M : Matcher := fun l => repRange digitM 1 3 l

/-- A metric keyword with its optional plural `s`, case-insensitively
(`likes?`, `views?`, `plays?`, `comments?`, `others`). -/
def ciWordOptS (w : String) : Matcher := seqM (ciLit w) (optM (ciLit "s"))

/-- `(?:,\d{3})+` — one or more comma-separated three-digit groups. -/
def commaGroupsM : Matcher :=
  fun l => repRange (seqM (charM (fun c => c == ',')) (repRange digitM 3 3)) 1 l.length l

/-- `\d{1,3}(?:,\d{3})+` — the "large number" literal. -/
def bigNumM : Matcher := seqM d13M commaGroupsM

/-- `(?:[,.]\d{3})*` — comma or dot separated three-digit groups. -/
def sepGroupsM : Matcher :=
  starM (seqM (charM (fun c => c == ',' || c == '.')) (repRange digitM 3 3))

/-- `(?:\.\d+)?` — an optional decimal part. -/
def decPartM : Matcher := optM (seqM (charM (fun c => c == '.')) (plusM digitM))

/-- `[KMB]?` under the `/i` flag. -/
def kmbM : Matcher :=
  optM (charM (fun c => c == 'K' || c == 'M' || c == 'B' || c == 'k' || c == 'm' || c == 'b'))

/-- `\d{1,3}(?:[,.]\d{3})*(?:\.\d+)?[KMB]?` — the compact metric
numeral. -/
def numTokM : Matcher := seqM d13M (seqM sepGroupsM (seqM decPartM kmbM))

/-- `/(\d{1,3}(?:,\d{3})+)\s*(?:likes?|views?|comments?)/gi` — strategy 1
of the metrics block. -/
def bigPatM : Matcher :=
  seqM bigNumM (seqM wsStar
    (altM (ciWordOptS "like") (altM (ciWordOptS "view") (ciWordOptS "comment"))))

/-- `/(\d{1,3}(?:[,.]\d{3})*(?:\.\d+)?[KMB]?)\s*likes?/gi`. -/
def likesPat1M : Matcher := seqM numTokM (seqM wsStar (ciWordOptS "like"))

/-- `.` without the `s` flag: any character except a newline. -/
def dotM : Matcher := charM (fun c => !(c == '\n'))

/-- `/Liked by\s+.*?and\s+(\d{1,3}(?:[,.]\d{3})*(?:\.\d+)?[KMB]?)\s*others/gi`. -/
def likedByPatM : Matcher :=
  seqM (ciLit "Liked by") (seqM wsPlus (seqM (lazyStarM dotM)
    (seqM (ciLit "and") (seqM wsPlus (seqM numTokM (seqM wsStar (ciLit "others")))))))

/-- `/(\d{1,3}(?:[,.]\d{3})*(?:\.\d+)?[KMB]?)\s*(?:views?|plays?)/gi`. -/
def viewsPatM : Matcher :=
  seqM numTokM (seqM wsStar (altM (ciWordOptS "view") (ciWordOptS "play")))

/-- `/(?:View all\s+)?(\d{1,3}(?:[,.]\d{3})*(?:\.\d+)?[KMB]?)\s*comments?/gi`. -/
def commentsPatM : Matcher :=
  seqM (optM (seqM (ciLit "View all") wsPlus))
    (seqM numTokM (seqM wsStar (ciWordOptS "comment")))

/-- `[A-Za-z]`. -/
def alphaM : Matcher :=
  charM (fun c => (65 ≤ c.toNat && c.toNat ≤ 90) || (97 ≤ c.toNat && c.toNat ≤ 122))

/-- `[A-Za-z0-9\s]`. -/
def alnumWsM : Matcher :=
  charM (fun c => (65 ≤ c.toNat && c.toNat ≤ 90) || (97 ≤ c.toNat && c.toNat ≤ 122) ||
    isDig c || isWsC c)

/-- `/([A-Za-z][A-Za-z0-9\s]{2,30})\s*•\s*([A-Za-z][A-Za-z0-9\s]{2,30})/g`
— the "Artist • Song" audio pattern. -/
def audioSepPatM : Matcher :=
  seqM alphaM (seqM (fun l => repRange alnumWsM 2 30 l)
    (seqM wsStar (seqM (charM (fun c => c == '•'))
      (seqM wsStar (seqM alphaM (fun l => repRange alnumWsM 2 30 l))))))

/-- First match of a pattern in a page text, as a string. -/
def findFirstS (m : Matcher) (s : String) : Option String :=
  (scanFirst m s.data).map (fun l => (⟨l⟩ : String))

/-- All matches of a pattern in a page text (the `g` flag). -/
def findAllS (m : Matcher) (s : String) : List String :=
  (scanAll m (s.data.length + 1) s.data).map (fun l => (⟨l⟩ : String))

example : findFirstS likesPat1M "33 Likes, 12 comments" = some "33 Likes" := by decide
example : findFirstS likesPat1M "1.2K likes here" = some "1.2K likes" := by decide
example : findAllS bigPatM "817,242 likes and 1,024 views" =
    ["817,242 likes", "1,024 views"] := by decide
example : findFirstS numTokM "x 817,242 likes" = some "817,242" := by decide
example : findFirstS viewsPatM "1.2K likes" = none := by decide
example : findFirstS audioSepPatM "abc • def" = some "abc • def" := by decide
example : findFirstS commentsPatM "View all 25 comments" = some "View all 25 comments" := by decide

/-!
## Data model

`Doc` is the rendered document handed to the handler: the request URL,
the final resolved URL (`page.url()` after navigation), the page text
snapshot (`document.body.textContent`) and an opaque selector interface
(`page.$$`; `page.$` is its head).  `Elem` carries the two element
readers the handler uses (`el.href`, `el.textContent`).  `Faults` models
runtime DOM/session exceptions: `nav` is a thrown navigation error,
`pageTextFail` a throw of the unprotected page-text evaluation, and each
remaining flag means the corresponding field's `try` block threw before
assigning anything. -/

/-- A DOM element handle: the `el.href` and `el.textContent` readers. -/
structure Elem where
  href : Option String
  text : Option String
deriving DecidableEq

/-- A rendered document. -/
structure Doc where
  requestUrl : String
  finalUrl : String
  pageText : String
  query : String → List Elem

/-- Runtime exception oracle for one handler invocation. -/
structure Faults where
  nav : Option String
  pageTextFail : Option String
  username : Bool
  metrics : Bool
  audio : Bool
  caption : Bool
deriving DecidableEq

/-- No exception occurs anywhere. -/
def noFaults : Faults := ⟨none, none, false, false, false, false⟩

/-- The output record (`interface ReelData`); metric counts are
JavaScript numbers, i.e. rationals. -/
structure ReelData where
  username : Option String
  audioUsed : Option String
  comments : Option ℚ
  likes : Option ℚ
  views : Option ℚ
  title : Option String
  description : Option String
  url : String
  error : Option String
deriving DecidableEq

/-- The record as created at the top of the handler: only `url` set. -/
def initReel (u : String) : ReelData :=
  ⟨none, none, none, none, none, none, none, u, none⟩

/-- JavaScript truthiness of an optional string field
(`undefined` and `""` are falsy). -/
def truthyS (o : Option String) : Bool := !(o.getD "" == "")

/-- JavaScript falsiness of an optional numeric field
(`undefined` and `0` are falsy). -/
def falsyQ (o : Option ℚ) : Bool := o.getD 0 == 0

/-!
## Username extraction (final script, lines 489–555)
-/

/-- The `profileLinks` selector string of the source. -/
def profileLinksSel : String :=
  "a[href^=\"/\"]:not([href=\"/\"]):not([href*=\"accounts\"]):not([href*=\"login\"]):not([href*=\"signup\"])"

/-- The header fallback selectors of the source. -/
def headerSels : List String :=
  ["header h2 a", "header h1 a", "header a[href^=\"/\"]:not([href*=\"accounts\"])"]

/-- A character that ends the captured segment of
`/instagram\.com\/([^/?#]+)\/?$/`. -/
def segEnd (c : Char) : Bool := c == '/' || c == '?' || c == '#'

/-- Try `/instagram\.com\/([^/?#]+)\/?$/` anchored at the head of the
list: the literal, then a non-empty run of non-terminator characters,
then optionally one `/`, then the end of the string. -/
def profileSegAt (l : List Char) : Option (List Char) :=
  if prefixOfB "instagram.com/".data l then
    let rest := l.drop 14
    let seg := rest.takeWhile (fun c => !(segEnd c))
    let after := rest.dropWhile (fun c => !(segEnd c))
    if seg ≠ [] ∧ (after = [] ∨ after = ['/']) then some seg else none
  else none

/-- Leftmost match of `/instagram\.com\/([^/?#]+)\/?$/`, returning the
captured path segment. -/
def scanProfile : List Char → Option (List Char)
  | [] => none
  | l@(_ :: t) =>
    match profileSegAt l with
    | some s => some s
    | none => scanProfile t

/-- `href.match(/instagram\.com\/([^/?#]+)\/?$/)?.[1]`. -/
def matchProfileHref (h : String) : Option String :=
  (scanProfile h.data).map (fun l => (⟨l⟩ : String))

/-- Method 1, href branch: accept the captured segment when it avoids the
reserved substrings and is longer than one character. -/
def hrefCand (e : Elem) : Option String :=
  match e.href with
  | none => none
  | some h =>
    if h = "" then none
    else
      match matchProfileHref h with
      | none => none
      | some seg =>
        if hasSubS seg "accounts" = false ∧ hasSubS seg "reel" = false ∧
            hasSubS seg "audio" = false ∧ hasSubS seg "explore" = false ∧
            1 < seg.length
        then some seg else none

/-- Method 1, text fallback branch: accept the trimmed text when the raw
text is truthy, trim-truthy, free of the chrome markers and of length
strictly between 1 and 30. -/
def textCand (e : Elem) : Option String :=
  match e.text with
  | none => none
  | some t =>
    if t ≠ "" ∧ trimS t ≠ "" ∧ hasSubS t "Follow" = false ∧
        hasSubS t "Sign" = false ∧ hasSubS t "Log" = false ∧
        hasSubS t "•" = false ∧ 1 < t.length ∧ t.length < 30
    then some (trimS t) else none

/-- The Method 1 loop over the profile links: first element whose href
branch or (failing that) text branch accepts. -/
def firstLinkUsername : List Elem → Option String
  | [] => none
  | e :: es =>
    match hrefCand e with
    | some u => some u
    | none =>
      match textCand e with
      | some u => some u
      | none => firstLinkUsername es

/-- Method 2 acceptance: the header segment is only checked against
`accounts`. -/
def headerCand (e : Elem) : Option String :=
  match e.href with
  | none => none
  | some h =>
    if h = "" then none
    else
      match matchProfileHref h with
      | none => none
      | some seg => if hasSubS seg "accounts" = false then some seg else none

/-- The username extraction: Method 1 over the profile links, then the
header selectors. -/
def extractUsername (d : Doc) : Option String :=
  match firstLinkUsername (d.query profileLinksSel) with
  | some u => some u
  | none => headerSels.findSome? (fun sel => ((d.query sel).head?).bind headerCand)

/-- The username block of the handler. -/
def usernameStep (d : Doc) (r : ReelData) : ReelData :=
  match extractUsername d with
  | some u => { r with username := some u }
  | none => r

/-!
## Metrics extraction (final script, lines 557–658)
-/

/-- Selector of the comments-count link. -/
def commentsLinkSel : String := "a[href*=\"/comments/\"] span"

/-- Strategy 1 per-match processing: each large-number match assigns every
metric whose keyword it contains (case-sensitive `includes`), the number
re-extracted by `/(\d{1,3}(?:,\d{3})+)/i`. -/
def mStep1 (r : ReelData) (m : String) : ReelData :=
  let r1 :=
    if hasSubS m "like" then
      match findFirstS bigNumM m with
      | some nm => { r with likes := some (parseMetric nm) }
      | none => r
    else r
  let r2 :=
    if hasSubS m "view" then
      match findFirstS bigNumM m with
      | some nm => { r1 with views := some (parseMetric nm) }
      | none => r1
    else r1
  if hasSubS m "comment" then
    match findFirstS bigNumM m with
    | some nm => { r2 with comments := some (parseMetric nm) }
    | none => r2
  else r2

/-- The `Liked by … and N others` fallback of strategy 2. -/
def likesLikedBy (pt : String) (r : ReelData) : ReelData :=
  match findFirstS likedByPatM pt with
  | some m =>
    match findFirstS numTokM m with
    | some nm => { r with likes := some (parseMetric nm) }
    | none => r
  | none => r

/-- Strategy 2 for likes: the `N likes` pattern first, then the
`Liked by` pattern; the loop breaks on the first assignment. -/
def likesStrat2 (pt : String) (r : ReelData) : ReelData :=
  match findFirstS likesPat1M pt with
  | some m =>
    match findFirstS numTokM m with
    | some nm => { r with likes := some (parseMetric nm) }
    | none => likesLikedBy pt r
  | none => likesLikedBy pt r

/-- Strategy 2 for likes runs only when `likes` is still falsy
(`undefined` or `0`). -/
def likesStratGuard (pt : String) (r : ReelData) : ReelData :=
  if falsyQ r.likes then likesStrat2 pt r else r

/-- The views pattern, guarded by `!reelData.views`. -/
def viewsStrat (pt : String) (r : ReelData) : ReelData :=
  if falsyQ r.views then
    match findFirstS viewsPatM pt with
    | some m =>
      match findFirstS numTokM m with
      | some nm => { r with views := some (parseMetric nm) }
      | none => r
    | none => r
  else r

/-- The comments-link element, guarded by `!reelData.comments`. -/
def commentsLinkStrat (d : Doc) (r : ReelData) : ReelData :=
  if falsyQ r.comments then
    match (d.query commentsLinkSel).head? with
    | some e =>
      match e.text with
      | some t =>
        if t ≠ "" then
          match findFirstS numTokM t with
          | some nm => { r with comments := some (parseMetric nm) }
          | none => r
        else r
      | none => r
    | none => r
  else r

/-- The comments regex fallback, guarded by `!reelData.comments`. -/
def commentsRegexStrat (pt : String) (r : ReelData) : ReelData :=
  if falsyQ r.comments then
    match findFirstS commentsPatM pt with
    | some m =>
      match findFirstS numTokM m with
      | some nm => { r with comments := some (parseMetric nm) }
      | none => r
    | none => r
  else r

/-- The metrics block of the handler: strategy 1 folds over all
large-number matches, then the guarded strategies run in source order. -/
def metricsStep (d : Doc) (r : ReelData) : ReelData :=
  commentsRegexStrat d.pageText
    (commentsLinkStrat d
      (viewsStrat d.pageText
        (likesStratGuard d.pageText
          ((findAllS bigPatM d.pageText).foldl mStep1 r))))

/-!
## Audio extraction (final script, lines 660–724)
-/

/-- Selector of the audio attribution link. -/
def audioLinkSel : String := "a[href*=\"/reels/audio/\"]"

/-- Strategy-2 filter on an `Artist • Song` match. -/
def audioChromeOk (m : String) : Bool :=
  !hasSubS m "Sign" && !hasSubS m "Log" && !hasSubS m "Follow" &&
  !hasSubS m "Verified" && decide (m.length < 100)

/-- The status phrases of strategy 3, in source order. -/
def audioStatusWords : List String :=
  ["Original audio", "Audio is muted", "Sound on", "Sound off"]

/-- Audio strategy 1: the audio link element (its own inner `try`
swallows exceptions, which the fault model folds into the block
fault). -/
def audioLinkStrat (d : Doc) (r : ReelData) : ReelData :=
  match (d.query audioLinkSel).head? with
  | some e =>
    match e.text with
    | some t =>
      if t ≠ "" ∧ trimS t ≠ "" then { r with audioUsed := some (trimS t) } else r
    | none => r
  | none => r

/-- Audio strategy 2: the first chrome-free `Artist • Song` match of the
page text, guarded by `!reelData.audioUsed`. -/
def audioSepStrat (pt : String) (r : ReelData) : ReelData :=
  if truthyS r.audioUsed then r
  else
    match (findAllS audioSepPatM pt).find? audioChromeOk with
    | some m => { r with audioUsed := some (trimS m) }
    | none => r

/-- Audio strategy 3: the status phrases, guarded by
`!reelData.audioUsed`. -/
def audioStatusStrat (pt : String) (r : ReelData) : ReelData :=
  if truthyS r.audioUsed then r
  else
    match audioStatusWords.findSome? (fun w => findFirstS (ciLit w) pt) with
    | some m => { r with audioUsed := some m }
    | none => r

/-- The final audio fallback sentinel. -/
def audioFallback (r : ReelData) : ReelData :=
  if truthyS r.audioUsed then r
  else { r with audioUsed := some "Audio not detected" }

/-- The body of the audio `try` block: the audio link, then the
`Artist • Song` text pattern, then the status phrases, then the
`Audio not detected` sentinel. -/
def audioCore (d : Doc) (r : ReelData) : ReelData :=
  audioFallback (audioStatusStrat d.pageText (audioSepStrat d.pageText (audioLinkStrat d r)))

/-- The audio block: a thrown exception is caught and replaced by the
failure sentinel. -/
def audioStep (d : Doc) (fault : Bool) (r : ReelData) : ReelData :=
  if fault then { r with audioUsed := some "Audio extraction failed" } else audioCore d r

/-!
## Caption extraction (final script, lines 726–807)
-/

/-- The exact H1 caption selector of the source. -/
def h1CaptionSel : String := "h1._ap3a._aaco._aacu._aacx._aad7._aade"

/-- The fallback caption selectors of the source, in order. -/
def captionSels : List String :=
  ["h1[dir=\"auto\"]", "h1", "span[dir=\"auto\"]", "div[class*=\"caption\"] span",
   "article span"]

/-- Strategy-2 acceptance for a caption candidate text. -/
def s2CaptionOk (t : String) (uo : Option String) : Bool :=
  !(t == "") && decide (10 < (trimS t).length) && !hasSubS t "likes" &&
  !hasSubS t "views" && !hasSubS t "comments" && !hasSubS t "Follow" &&
  !hasSubS t "•" && !hasSubS t "The Black Eyed Peas" && !hasSubS t "Sign" &&
  !hasSubS t "Log" && !(some t == uo)

/-- Strategy 2: first element over the caption selectors whose text is
accepted; both loops break on the first hit. -/
def s2Find (d : Doc) (uo : Option String) : Option String :=
  (captionSels.flatMap (fun sel => d.query sel)).findSome? (fun e =>
    match e.text with
    | some t => if s2CaptionOk t uo then some (trimS t) else none
    | none => none)

/-- Strategy-3 acceptance for a trimmed page-text line (note: unlike
strategy 2 it does not exclude `Sign`/`Log`, and it requires one of the
emoji or keyword markers). -/
def s3CaptionOk (cl : String) (uo : Option String) : Bool :=
  decide (10 < cl.length) && decide (cl.length < 200) && !hasSubS cl "likes" &&
  !hasSubS cl "views" && !hasSubS cl "comments" && !hasSubS cl "Follow" &&
  !hasSubS cl "•" && !hasSubS cl "The Black Eyed Peas" && !(some cl == uo) &&
  (hasSubS cl "🕹" || hasSubS cl "🤖" || hasSubS cl "🎥" || hasSubS cl "❤️" ||
   hasSubS (lowS cl) "rock")

/-- Strategy 3: first accepted trimmed line of the page text. -/
def s3Find (pt : String) (uo : Option String) : Option String :=
  (splitNl pt.data).findSome? (fun line =>
    let cl : String := ⟨trimChars line⟩
    if s3CaptionOk cl uo then some cl else none)

/-- Caption strategy 1: the exact H1 element; an accepted caption is
assigned, trimmed, to both `description` and `title`. -/
def captionH1Strat (d : Doc) (r : ReelData) : ReelData :=
  match (d.query h1CaptionSel).head? with
  | some e =>
    match e.text with
    | some t =>
      if t ≠ "" ∧ trimS t ≠ "" then
        { r with description := some (trimS t), title := some (trimS t) }
      else r
    | none => r
  | none => r

/-- Caption strategy 2 (selector loop), guarded by
`!reelData.description`. -/
def captionSelStrat (d : Doc) (r : ReelData) : ReelData :=
  if truthyS r.description then r
  else
    match s2Find d r.username with
    | some c => { r with description := some c, title := some c }
    | none => r

/-- Caption strategy 3 (page-text line scan), guarded by
`!reelData.description`. -/
def captionLinesStrat (pt : String) (r : ReelData) : ReelData :=
  if truthyS r.description then r
  else
    match s3Find pt r.username with
    | some c => { r with description := some c, title := some c }
    | none => r

/-- The caption block of the handler: in every strategy of the final
script, `title` is assigned the same full trimmed caption as
`description`. -/
def captionStep (d : Doc) (r : ReelData) : ReelData :=
  captionLinesStrat d.pageText (captionSelStrat d (captionH1Strat d r))

/-!
## The request handler (final script, lines 452–820)
-/

/-- The reel path segment tested by the redirect check. -/
def reelSeg : String := "instagram.com/reel/"

/-- The record produced when navigation, the redirect check and the
page-text snapshot all succeed: the four field blocks run in source
order, each swallowing its own exceptions (a set fault flag means the
block threw before assigning, so its assignments are skipped — except
the audio block, whose `catch` assigns the failure sentinel). -/
def okRecord (d : Doc) (f : Faults) : ReelData :=
  let r0 := initReel d.requestUrl
  let r1 := if f.username then r0 else usernameStep d r0
  let r2 := if f.metrics then r1 else metricsStep d r1
  let r3 := audioStep d f.audio r2
  if f.caption then r3 else captionStep d r3

/-- The `requestHandler` of the final script as a pure function of the
document and the exception oracle.  The second component counts the
`Actor.pushData` calls of the invocation.  A navigation fault, a failed
redirect check or a page-text fault abort extraction (the outer `catch`
sets `error` and pushes the partial record); otherwise the four field
blocks run in source order. -/
def requestHandler (d : Doc) (f : Faults) : ReelData × ℕ :=
  let r0 := initReel d.requestUrl
  match f.nav with
  | some m => ({ r0 with error := some m }, 1)
  | none =>
    if hasSubS d.finalUrl reelSeg = false then
      ({ r0 with error := some ("Redirected away from reel: " ++ d.finalUrl) }, 1)
    else
      match f.pageTextFail with
      | some m => ({ r0 with error := some m }, 1)
      | none => (okRecord d f, 1)

/-!
## Fragments of the earlier scripts cited by the claims
-/

/-- First line of a caption, trimmed (`caption.split('\n')[0].trim()`). -/
def firstLineTrim (s : String) : String := ⟨trimChars ((splitNl s.data).headD [])⟩

/-- The fields read off the embedded `shortcode_media` JSON object by the
middle script's internal-API strategy; the counts are raw JSON numbers. -/
structure ShortcodeMedia where
  ownerUsername : Option String
  likeCount : Option ℚ
  viewCount : Option ℚ
  commentCount : Option ℚ
  captionText : Option String

/-- Middle script, lines 105–117: strategy 1 copies the `shortcode_media`
fields into the record without validation, then derives `title` from the
caption's first line when that line has at most 100 characters. -/
def applyInternalApi (media : ShortcodeMedia) (r : ReelData) : ReelData :=
  let r1 := { r with
    username := media.ownerUsername
    likes := media.likeCount
    views := media.viewCount
    comments := media.commentCount
    description := media.captionText }
  match media.captionText with
  | some c =>
    if c ≠ "" then
      let fl := firstLineTrim c
      if fl.length ≤ 100 then { r1 with title := some fl } else r1
    else r1
  | none => r1

/-- main.ts, lines 169–183: per-caption processing of the caption loop —
an accepted caption becomes `description`, and its trimmed first line
becomes `title` exactly when it has at most 100 characters. -/
def captionAssignMain (caption : String) (r : ReelData) : ReelData :=
  if caption ≠ "" ∧ trimS caption ≠ "" ∧ 10 < caption.length then
    let r1 := { r with description := some (trimS caption) }
    let fl := firstLineTrim caption
    if fl.length ≤ 100 then { r1 with title := some fl } else r1
  else r

/-- Middle script, lines 330–345: per-caption processing of the
caption-container loop — the trimmed first line becomes `title` exactly
when its length is at most 100 and greater than 3. -/
def captionAssignV2 (caption : String) (r : ReelData) : ReelData :=
  if caption ≠ "" ∧ 10 < (trimS caption).length ∧ hasSubS caption "likes" = false ∧
      hasSubS caption "views" = false then
    let r1 := { r with description := some (trimS caption) }
    let fl := firstLineTrim caption
    if fl.length ≤ 100 ∧ 3 < fl.length then { r1 with title := some fl } else r1
  else r

example :
    (requestHandler ⟨"u", "https://www.instagram.com/reel/x", "", fun _ => []⟩
      noFaults).1.audioUsed = some "Audio not detected" := by decide
example :
    (requestHandler ⟨"u", "https://www.instagram.com/accounts/login", "", fun _ => []⟩
      noFaults).1.error =
    some "Redirected away from reel: https://www.instagram.com/accounts/login" := by decide
example :
    (requestHandler ⟨"u", "https://www.instagram.com/reel/x", "1.2K likes", fun _ => []⟩
      noFaults).1.likes = some 1200 := by decide

/-!
## Rendering natural numbers back to digit literals (for the round-trip
property of the normalizer)
-/

/-- The ASCII digit character of `d` (for `d ≥ 9`, the digit `9`; callers
only use `d % 10`). -/
def digitChar (d : ℕ) : Char :=
  match d with
  | 0 => '0' | 1 => '1' | 2 => '2' | 3 => '3' | 4 => '4'
  | 5 => '5' | 6 => '6' | 7 => '7' | 8 => '8' | _ => '9'

/-- The decimal digits of `n`, least significant first (`[]` for 0);
`fuel` bounds the recursion structurally so the kernel can evaluate it. -/
def toDigitsRevF : ℕ → ℕ → List Char
  | 0, _ => []
  | fuel + 1, n => if n = 0 then [] else digitChar (n % 10) :: toDigitsRevF fuel (n / 10)

/-- The decimal digits of `n`, least significant first (`[]` for 0). -/
def toDigitsRev (n : ℕ) : List Char := toDigitsRevF n n

/-- The standard decimal rendering of `n`, as characters. -/
def renderChars (n : ℕ) : List Char :=
  if n = 0 then ['0'] else (toDigitsRev n).reverse

/-- The standard decimal rendering of `n` (plain digits, e.g. `42000`). -/
def renderNat (n : ℕ) : String := ⟨renderChars n⟩

/-- Insert a comma after every three characters, starting from the head
(used on the reversed digit list, so the grouping counts from the right). -/
def group3Rev : List Char → List Char
  | a :: b :: c :: d :: rest => a :: b :: c :: ',' :: group3Rev (d :: rest)
  | l => l

/-- The comma-grouped decimal rendering of `n` (e.g. `42,000`). -/
def commaGroupChars (n : ℕ) : List Char :=
  (group3Rev (renderChars n).reverse).reverse

/-- The comma-grouped decimal rendering of `n`, as a string. -/
def commaGroup (n : ℕ) : String := ⟨commaGroupChars n⟩

example : renderNat 42000 = "42000" := by decide
example : commaGroup 42000 = "42,000" := by decide
example : commaGroup 817242 = "817,242" := by decide
example : commaGroup 5 = "5" := by decide

/-!
## Arithmetic facts about the numeric normalizer
-/

theorem roundHalfUpN_one (n : ℕ) : roundHalfUpN n 1 = n := by
  unfold roundHalfUpN; omega

/-- `roundHalfUpN` is the half-up rounding `⌊a/b + 1/2⌋` of the exact
quotient it receives. -/
theorem roundHalfUpN_eq_floor (a b : ℕ) (hb : 0 < b) :
    (roundHalfUpN a b : ℤ) = ⌊(a : ℚ) / (b : ℚ) + 1 / 2⌋ := by
  have hbq : ((b : ℚ)) ≠ 0 := by positivity
  have h : (a : ℚ) / b + 1 / 2 = ((2 * a + b : ℕ) : ℚ) / ((2 * b : ℕ) : ℚ) := by
    push_cast
    field_simp
    ring
  rw [h, Rat.floor_natCast_div_natCast]
  simp [roundHalfUpN]

/-- The pair produced by `mantissaScale` denotes exactly the value
`parseFloat` returns on an `ip` or `ip.fp` numeral: the integer part plus
the fraction part scaled down by its length. -/
theorem mantissaScale_spec (l : List Char) :
    (((mantissaScale l).1 : ℚ)) / 10 ^ (mantissaScale l).2 =
      (natOfDigits (l.takeWhile (fun c => !(c == '.'))) : ℚ) +
      (natOfDigits ((l.dropWhile (fun c => !(c == '.'))).drop 1) : ℚ) /
        10 ^ ((l.dropWhile (fun c => !(c == '.'))).drop 1).length := by
  unfold mantissaScale
  have h10 : ((10 : ℚ)) ^ ((l.dropWhile (fun c => !(c == '.'))).drop 1).length ≠ 0 := by
    positivity
  push_cast
  field_simp

theorem isDig_bounds {c : Char} (h : isDig c = true) :
    48 ≤ c.toNat ∧ c.toNat ≤ 57 := by
  simpa [isDig] using h

theorem upC_digit {c : Char} (h : isDig c = true) : upC c = c := by
  obtain ⟨h1, h2⟩ := isDig_bounds h
  have hno : ¬(97 ≤ c.toNat ∧ c.toNat ≤ 122) := fun hc => by omega
  unfold upC
  rw [if_neg hno]

theorem digit_keep {c : Char} (h : isDig c = true) :
    (!(c == ',' || isWsC c)) = true := by
  obtain ⟨h1, h2⟩ := isDig_bounds h
  have hc : (c == ',') = false := by
    simp only [beq_eq_false_iff_ne, ne_eq]
    intro he
    subst he
    simp at h1 h2
  have hw : isWsC c = false := by
    simp only [isWsC, Bool.or_eq_false_iff, decide_eq_false_iff_not]
    omega
  simp [hc, hw]

theorem digit_ne_dot {c : Char} (h : isDig c = true) : (c == '.') = false := by
  obtain ⟨h1, h2⟩ := isDig_bounds h
  simp only [beq_eq_false_iff_ne, ne_eq]
  intro he
  subst he
  simp at h1 h2

theorem digit_ne_comma {c : Char} (h : isDig c = true) : (c == ',') = false := by
  obtain ⟨h1, h2⟩ := isDig_bounds h
  simp only [beq_eq_false_iff_ne, ne_eq]
  intro he
  subst he
  simp at h1 h2

theorem digits_cleanChars {l : List Char} (h : ∀ c ∈ l, isDig c = true) :
    cleanChars l = l := by
  unfold cleanChars
  rw [List.filter_eq_self.mpr (fun a ha => digit_keep (h a ha))]
  calc l.map upC = l.map id := List.map_congr_left (fun a ha => upC_digit (h a ha))
    _ = l := List.map_id l

theorem digits_takeWhile_not_dot {l : List Char} (h : ∀ c ∈ l, isDig c = true) :
    l.takeWhile (fun c => !(c == '.')) = l :=
  List.takeWhile_eq_self_iff.mpr (fun a ha => by simp [digit_ne_dot (h a ha)])

theorem digits_dropWhile_not_dot {l : List Char} (h : ∀ c ∈ l, isDig c = true) :
    l.dropWhile (fun c => !(c == '.')) = [] :=
  List.dropWhile_eq_nil_iff.mpr (fun a ha => by simp [digit_ne_dot (h a ha)])

theorem digits_mantissaScale {l : List Char} (h : ∀ c ∈ l, isDig c = true) :
    mantissaScale l = (natOfDigits l, 0) := by
  unfold mantissaScale
  rw [digits_takeWhile_not_dot h, digits_dropWhile_not_dot h]
  simp [natOfDigits]

theorem digits_replFirstComma {l : List Char} (h : ∀ c ∈ l, isDig c = true) :
    replFirstComma l = l := by
  induction l with
  | nil => rfl
  | cons c t ih =>
    have hc := digit_ne_comma (h c (by simp))
    simp [replFirstComma, hc, ih (fun a ha => h a (by simp [ha]))]

theorem digits_numTail {l : List Char} (h : ∀ c ∈ l, isDig c = true) :
    numTail l = l := by
  unfold numTail
  rw [List.takeWhile_eq_self_iff.mpr h, List.dropWhile_eq_nil_iff.mpr h]

theorem digits_firstNumPart {l : List Char} (h : ∀ c ∈ l, isDig c = true)
    (hne : l ≠ []) : firstNumPart l = some l := by
  match l, hne with
  | c :: t, _ =>
    unfold firstNumPart
    rw [if_pos (h c (by simp))]
    rw [digits_numTail h]

theorem digits_not_contains {l : List Char} (h : ∀ c ∈ l, isDig c = true)
    {x : Char} (hx : isDig x = false) : l.contains x = false := by
  simp only [List.contains_eq_any_beq, List.any_eq_false]
  intro c hcm
  by_cases hxc : x = c
  · subst hxc
    rw [h x hcm] at hx
    exact absurd hx (by simp)
  · simp [hxc]

theorem not_contains_append {l1 l2 : List Char} {x : Char}
    (h1 : l1.contains x = false) (h2 : l2.contains x = false) :
    (l1 ++ l2).contains x = false := by
  simp only [List.contains_eq_any_beq, List.any_eq_false] at *
  intro c hc
  rcases List.mem_append.mp hc with h | h
  exacts [h1 c h, h2 c h]

theorem contains_append_single (l : List Char) (x : Char) :
    (l ++ [x]).contains x = true := by
  simp only [List.contains_eq_any_beq, List.any_eq_true]
  exact ⟨x, by simp, by simp⟩

theorem digits_multKMB {l : List Char} (h : ∀ c ∈ l, isDig c = true) :
    multKMB l = 1 := by
  unfold multKMB
  rw [digits_not_contains h (by decide), digits_not_contains h (by decide),
    digits_not_contains h (by decide)]
  rfl

/-- Evaluation of the normalizer on a pure digit string: the denoted
natural number (no multiplier, no rounding loss). -/
theorem parseMetricN_digits {l : List Char} (h : ∀ c ∈ l, isDig c = true)
    (hne : l ≠ []) : parseMetricN ⟨l⟩ = natOfDigits l := by
  have hs : (⟨l⟩ : String) ≠ "" := by simpa [String.ext_iff] using hne
  simp only [parseMetricN, if_neg hs]
  show roundHalfUpN ((mantissaScale
      (replFirstComma ((firstNumPart (cleanChars l)).getD ['0']))).1 *
      multKMB (cleanChars l)) _ = _
  rw [digits_cleanChars h, digits_firstNumPart h hne]
  simp only [Option.getD_some]
  rw [digits_replFirstComma h, digits_mantissaScale h, digits_multKMB h]
  simp [roundHalfUpN_one]

theorem takeWhile_append_single {p : Char → Bool} {l : List Char} {x : Char}
    (h : ∀ c ∈ l, p c = true) (hx : p x = false) :
    (l ++ [x]).takeWhile p = l ∧ (l ++ [x]).dropWhile p = [x] := by
  induction l with
  | nil => simp [List.takeWhile, List.dropWhile, hx]
  | cons c t ih =>
    have hc := h c (by simp)
    have iht := ih (fun a ha => h a (by simp [ha]))
    simp [List.takeWhile_cons, List.dropWhile_cons, hc, iht.1, iht.2]

/-- Evaluation of the normalizer on a digit string followed by a single
magnitude letter: the denoted number times the letter's multiplier. -/
theorem parseMetricN_digits_suffix {l : List Char} (h : ∀ c ∈ l, isDig c = true)
    (hne : l ≠ []) {suf : Char} (hkeep : (!(suf == ',' || isWsC suf)) = true)
    (hup : upC suf = suf) (hdig : isDig suf = false) :
    parseMetricN ⟨l ++ [suf]⟩ = natOfDigits l * multKMB (l ++ [suf]) := by
  have hs : (⟨l ++ [suf]⟩ : String) ≠ "" := by simp [String.ext_iff]
  simp only [parseMetricN, if_neg hs]
  show roundHalfUpN ((mantissaScale
      (replFirstComma ((firstNumPart (cleanChars (l ++ [suf]))).getD ['0']))).1 *
      multKMB (cleanChars (l ++ [suf]))) _ = _
  have hclean : cleanChars (l ++ [suf]) = l ++ [suf] := by
    unfold cleanChars
    rw [List.filter_eq_self.mpr]
    · calc (l ++ [suf]).map upC = (l ++ [suf]).map id :=
            List.map_congr_left (fun a ha => by
              rcases List.mem_append.mp ha with ha | ha
              · exact upC_digit (h a ha)
              · simp only [List.mem_singleton] at ha
                subst ha
                exact hup)
        _ = l ++ [suf] := List.map_id _
    · intro a ha
      rcases List.mem_append.mp ha with ha | ha
      · exact digit_keep (h a ha)
      · simp only [List.mem_singleton] at ha
        subst ha
        exact hkeep
  rw [hclean]
  obtain ⟨htake, hdrop⟩ := takeWhile_append_single h hdig
  have hfnp : firstNumPart (l ++ [suf]) = some l := by
    match l, hne, h, htake, hdrop with
    | c :: t, _, h, htake, hdrop =>
      rw [List.cons_append] at htake hdrop
      show firstNumPart (c :: (t ++ [suf])) = _
      unfold firstNumPart
      rw [if_pos (h c (by simp))]
      unfold numTail
      rw [htake, hdrop]
      simp
  rw [hfnp]
  simp only [Option.getD_some]
  rw [digits_replFirstComma h, digits_mantissaScale h]
  simp [roundHalfUpN_one]

/-- The normalizer ignores commas and whitespace: its value on `s` is its
value on `s` with all commas and whitespace characters removed. -/
theorem parseMetricN_strip (s : String) :
    parseMetricN s =
      parseMetricN ⟨s.data.filter (fun c => !(c == ',' || isWsC c))⟩ := by
  by_cases hs : s = ""
  · subst hs
    rfl
  · by_cases hf : s.data.filter (fun c => !(c == ',' || isWsC c)) = []
    · have hs2 : (⟨s.data.filter (fun c => !(c == ',' || isWsC c))⟩ : String) = "" := by
        rw [hf]
      have hcv : cleanChars s.data = [] := by
        unfold cleanChars
        rw [hf]
        rfl
      rw [hs2]
      simp only [parseMetricN, if_neg hs, if_pos rfl]
      show roundHalfUpN ((mantissaScale
          (replFirstComma ((firstNumPart (cleanChars s.data)).getD ['0']))).1 *
          multKMB (cleanChars s.data)) _ = _
      rw [hcv]
      decide
    · have hs2 : (⟨s.data.filter (fun c => !(c == ',' || isWsC c))⟩ : String) ≠ "" := by
        simpa [String.ext_iff] using hf
      have hc2 : cleanChars (s.data.filter (fun c => !(c == ',' || isWsC c))) =
          cleanChars s.data := by
        unfold cleanChars
        congr 1
        rw [List.filter_filter]
        apply List.filter_congr
        intro a _
        cases h : (!(a == ',' || isWsC a)) <;> simp [h]
      simp only [parseMetricN, if_neg hs, if_neg hs2]
      show roundHalfUpN ((mantissaScale
          (replFirstComma ((firstNumPart (cleanChars s.data)).getD ['0']))).1 *
          multKMB (cleanChars s.data)) _ =
        roundHalfUpN ((mantissaScale
          (replFirstComma ((firstNumPart (cleanChars
            (s.data.filter (fun c => !(c == ',' || isWsC c))))).getD ['0']))).1 *
          multKMB (cleanChars (s.data.filter (fun c => !(c == ',' || isWsC c))))) _
      rw [hc2]

theorem natOfDigits_append (l : List Char) (c : Char) :
    natOfDigits (l ++ [c]) = 10 * natOfDigits l + (c.toNat - 48) := by
  simp [natOfDigits, List.foldl_append]

theorem digitChar_isDig (d : ℕ) : isDig (digitChar d) = true := by
  unfold digitChar
  split <;> decide

theorem digitChar_toNat {d : ℕ} (h : d < 10) : (digitChar d).toNat - 48 = d := by
  interval_cases d <;> decide

theorem toDigitsRevF_fuel {f1 f2 n : ℕ} (h1 : n ≤ f1) (h2 : n ≤ f2) :
    toDigitsRevF f1 n = toDigitsRevF f2 n := by
  induction f1 generalizing f2 n with
  | zero =>
    obtain rfl : n = 0 := by omega
    cases f2 <;> simp [toDigitsRevF]
  | succ f ih =>
    cases f2 with
    | zero =>
      obtain rfl : n = 0 := by omega
      simp [toDigitsRevF]
    | succ g =>
      by_cases hn : n = 0
      · simp [toDigitsRevF, hn]
      · simp only [toDigitsRevF, if_neg hn]
        have hlt : n / 10 < n := Nat.div_lt_self (Nat.pos_of_ne_zero hn) (by norm_num)
        rw [@ih g (n / 10) (by omega) (by omega)]

theorem toDigitsRev_unfold (n : ℕ) :
    toDigitsRev n = if n = 0 then [] else digitChar (n % 10) :: toDigitsRev (n / 10) := by
  unfold toDigitsRev
  by_cases hn : n = 0
  · subst hn
    simp [toDigitsRevF]
  · match n, hn with
    | m + 1, hn =>
      simp only [toDigitsRevF, if_neg hn]
      have hlt : (m + 1) / 10 < m + 1 := Nat.div_lt_self (by omega) (by norm_num)
      rw [@toDigitsRevF_fuel m ((m + 1) / 10) ((m + 1) / 10) (by omega) (le_refl _)]

theorem toDigitsRev_digits (n : ℕ) : ∀ c ∈ toDigitsRev n, isDig c = true := by
  induction n using Nat.strong_induction_on with
  | _ n ih =>
    rw [toDigitsRev_unfold]
    by_cases hn : n = 0
    · simp [hn]
    · simp only [if_neg hn, List.mem_cons]
      rintro c (rfl | hc)
      · exact digitChar_isDig _
      · exact ih (n / 10) (Nat.div_lt_self (Nat.pos_of_ne_zero hn) (by norm_num)) c hc

theorem natOfDigits_toDigitsRev (n : ℕ) : natOfDigits (toDigitsRev n).reverse = n := by
  induction n using Nat.strong_induction_on with
  | _ n ih =>
    rw [toDigitsRev_unfold]
    by_cases hn : n = 0
    · simp [hn, natOfDigits]
    · simp only [if_neg hn, List.reverse_cons]
      rw [natOfDigits_append, ih (n / 10) (Nat.div_lt_self (Nat.pos_of_ne_zero hn) (by norm_num))]
      rw [digitChar_toNat (Nat.mod_lt _ (by norm_num))]
      omega

theorem renderChars_digits (n : ℕ) : ∀ c ∈ renderChars n, isDig c = true := by
  unfold renderChars
  split
  · simp
    decide
  · intro c hc
    exact toDigitsRev_digits n c (List.mem_reverse.mp hc)

theorem renderChars_ne_nil (n : ℕ) : renderChars n ≠ [] := by
  unfold renderChars
  split
  · simp
  · rw [toDigitsRev_unfold]
    simp [*]

theorem natOfDigits_renderChars (n : ℕ) : natOfDigits (renderChars n) = n := by
  unfold renderChars
  split
  · simp [natOfDigits, *]
  · exact natOfDigits_toDigitsRev n

/-- Round trip on the plain-digit rendering. -/
theorem parseMetricN_renderNat (n : ℕ) : parseMetricN (renderNat n) = n :=
  (parseMetricN_digits (renderChars_digits n) (renderChars_ne_nil n)).trans
    (natOfDigits_renderChars n)

theorem filter_group3Rev (p : Char → Bool) (hp : p ',' = false) (l : List Char) :
    (group3Rev l).filter p = l.filter p := by
  have H : ∀ k (l : List Char), l.length ≤ k → (group3Rev l).filter p = l.filter p := by
    intro k
    induction k with
    | zero =>
      intro l hl
      obtain rfl : l = [] := by
        cases l
        · rfl
        · simp at hl
      rfl
    | succ k ih =>
      intro l hl
      match l with
      | [] => rfl
      | [a] => rfl
      | [a, b] => rfl
      | [a, b, c] => rfl
      | a :: b :: c :: d :: rest =>
        show (a :: b :: c :: ',' :: group3Rev (d :: rest)).filter p = _
        have hrec : (group3Rev (d :: rest)).filter p = (d :: rest).filter p := by
          apply ih
          simp at hl ⊢
          omega
        simp only [List.filter_cons, hp, hrec]
        simp
  exact H l.length l (le_refl _)

/-- Round trip on the comma-grouped rendering. -/
theorem parseMetricN_commaGroup (n : ℕ) : parseMetricN (commaGroup n) = n := by
  have hstrip := parseMetricN_strip (commaGroup n)
  have hfilter : (commaGroup n).data.filter (fun c => !(c == ',' || isWsC c)) =
      renderChars n := by
    show (commaGroupChars n).filter _ = _
    unfold commaGroupChars
    rw [List.filter_reverse, filter_group3Rev _ (by decide), List.filter_reverse,
      List.reverse_reverse]
    exact List.filter_eq_self.mpr (fun a ha => digit_keep (renderChars_digits n a ha))
  rw [hstrip, hfilter]
  exact parseMetricN_renderNat n

/-!
## Step preservation lemmas: each field block touches only its own
fields.
-/

theorem truthyS_isSome {o : Option String} (h : truthyS o = true) :
    o.isSome = true := by
  cases o <;> simp_all [truthyS]

theorem usernameStep_pres (d : Doc) (r : ReelData) :
    (usernameStep d r).audioUsed = r.audioUsed ∧
    (usernameStep d r).likes = r.likes ∧
    (usernameStep d r).views = r.views ∧
    (usernameStep d r).comments = r.comments ∧
    (usernameStep d r).title = r.title ∧
    (usernameStep d r).description = r.description ∧
    (usernameStep d r).url = r.url ∧
    (usernameStep d r).error = r.error := by
  unfold usernameStep
  split <;> simp

theorem mStep1_pres (r : ReelData) (m : String) :
    (mStep1 r m).username = r.username ∧
    (mStep1 r m).audioUsed = r.audioUsed ∧
    (mStep1 r m).title = r.title ∧
    (mStep1 r m).description = r.description ∧
    (mStep1 r m).url = r.url ∧
    (mStep1 r m).error = r.error := by
  unfold mStep1
  (repeat' split) <;> simp

theorem foldl_mStep1_pres (ms : List String) (r : ReelData) :
    ((ms.foldl mStep1 r).username = r.username ∧
     (ms.foldl mStep1 r).audioUsed = r.audioUsed ∧
     (ms.foldl mStep1 r).title = r.title ∧
     (ms.foldl mStep1 r).description = r.description ∧
     (ms.foldl mStep1 r).url = r.url ∧
     (ms.foldl mStep1 r).error = r.error) := by
  induction ms generalizing r with
  | nil => simp
  | cons m t ih =>
    simp only [List.foldl_cons]
    obtain ⟨a1, a2, a3, a4, a5, a6⟩ := mStep1_pres r m
    obtain ⟨b1, b2, b3, b4, b5, b6⟩ := ih (mStep1 r m)
    exact ⟨b1.trans a1, b2.trans a2, b3.trans a3, b4.trans a4, b5.trans a5, b6.trans a6⟩

theorem likesLikedBy_pres (pt : String) (r : ReelData) :
    (likesLikedBy pt r).username = r.username ∧
    (likesLikedBy pt r).audioUsed = r.audioUsed ∧
    (likesLikedBy pt r).title = r.title ∧
    (likesLikedBy pt r).description = r.description ∧
    (likesLikedBy pt r).url = r.url ∧
    (likesLikedBy pt r).error = r.error := by
  unfold likesLikedBy
  cases h1 : findFirstS likedByPatM pt with
  | none => simp
  | some m =>
    cases h2 : findFirstS numTokM m with
    | none => simp [h2]
    | some nm => simp [h2]

theorem likesStrat2_pres (pt : String) (r : ReelData) :
    (likesStrat2 pt r).username = r.username ∧
    (likesStrat2 pt r).audioUsed = r.audioUsed ∧
    (likesStrat2 pt r).title = r.title ∧
    (likesStrat2 pt r).description = r.description ∧
    (likesStrat2 pt r).url = r.url ∧
    (likesStrat2 pt r).error = r.error := by
  unfold likesStrat2
  cases h1 : findFirstS likesPat1M pt with
  | none => exact likesLikedBy_pres pt r
  | some m =>
    cases h2 : findFirstS numTokM m with
    | none => simpa [h2] using likesLikedBy_pres pt r
    | some nm => simp [h2]

theorem likesStratGuard_pres (pt : String) (r : ReelData) :
    (likesStratGuard pt r).username = r.username ∧
    (likesStratGuard pt r).audioUsed = r.audioUsed ∧
    (likesStratGuard pt r).title = r.title ∧
    (likesStratGuard pt r).description = r.description ∧
    (likesStratGuard pt r).url = r.url ∧
    (likesStratGuard pt r).error = r.error := by
  unfold likesStratGuard
  split
  · exact likesStrat2_pres pt r
  · simp

theorem viewsStrat_pres (pt : String) (r : ReelData) :
    (viewsStrat pt r).username = r.username ∧
    (viewsStrat pt r).audioUsed = r.audioUsed ∧
    (viewsStrat pt r).title = r.title ∧
    (viewsStrat pt r).description = r.description ∧
    (viewsStrat pt r).url = r.url ∧
    (viewsStrat pt r).error = r.error := by
  unfold viewsStrat
  (repeat' split) <;> simp

theorem commentsLinkStrat_pres (d : Doc) (r : ReelData) :
    (commentsLinkStrat d r).username = r.username ∧
    (commentsLinkStrat d r).audioUsed = r.audioUsed ∧
    (commentsLinkStrat d r).title = r.title ∧
    (commentsLinkStrat d r).description = r.description ∧
    (commentsLinkStrat d r).url = r.url ∧
    (commentsLinkStrat d r).error = r.error := by
  unfold commentsLinkStrat
  (repeat' split) <;> simp

theorem commentsRegexStrat_pres (pt : String) (r : ReelData) :
    (commentsRegexStrat pt r).username = r.username ∧
    (commentsRegexStrat pt r).audioUsed = r.audioUsed ∧
    (commentsRegexStrat pt r).title = r.title ∧
    (commentsRegexStrat pt r).description = r.description ∧
    (commentsRegexStrat pt r).url = r.url ∧
    (commentsRegexStrat pt r).error = r.error := by
  unfold commentsRegexStrat
  (repeat' split) <;> simp

theorem metricsStep_pres (d : Doc) (r : ReelData) :
    (metricsStep d r).username = r.username ∧
    (metricsStep d r).audioUsed = r.audioUsed ∧
    (metricsStep d r).title = r.title ∧
    (metricsStep d r).description = r.description ∧
    (metricsStep d r).url = r.url ∧
    (metricsStep d r).error = r.error := by
  unfold metricsStep
  obtain ⟨a1, a2, a3, a4, a5, a6⟩ := foldl_mStep1_pres (findAllS bigPatM d.pageText) r
  obtain ⟨b1, b2, b3, b4, b5, b6⟩ :=
    likesStratGuard_pres d.pageText ((findAllS bigPatM d.pageText).foldl mStep1 r)
  obtain ⟨c1, c2, c3, c4, c5, c6⟩ :=
    viewsStrat_pres d.pageText
      (likesStratGuard d.pageText ((findAllS bigPatM d.pageText).foldl mStep1 r))
  obtain ⟨d1, d2, d3, d4, d5, d6⟩ :=
    commentsLinkStrat_pres d
      (viewsStrat d.pageText
        (likesStratGuard d.pageText ((findAllS bigPatM d.pageText).foldl mStep1 r)))
  obtain ⟨e1, e2, e3, e4, e5, e6⟩ :=
    commentsRegexStrat_pres d.pageText
      (commentsLinkStrat d
        (viewsStrat d.pageText
          (likesStratGuard d.pageText ((findAllS bigPatM d.pageText).foldl mStep1 r))))
  exact ⟨e1.trans (d1.trans (c1.trans (b1.trans a1))),
         e2.trans (d2.trans (c2.trans (b2.trans a2))),
         e3.trans (d3.trans (c3.trans (b3.trans a3))),
         e4.trans (d4.trans (c4.trans (b4.trans a4))),
         e5.trans (d5.trans (c5.trans (b5.trans a5))),
         e6.trans (d6.trans (c6.trans (b6.trans a6)))⟩

theorem audioLinkStrat_pres (d : Doc) (r : ReelData) :
    (audioLinkStrat d r).username = r.username ∧
    (audioLinkStrat d r).likes = r.likes ∧
    (audioLinkStrat d r).views = r.views ∧
    (audioLinkStrat d r).comments = r.comments ∧
    (audioLinkStrat d r).title = r.title ∧
    (audioLinkStrat d r).description = r.description ∧
    (audioLinkStrat d r).url = r.url ∧
    (audioLinkStrat d r).error = r.error := by
  unfold audioLinkStrat
  (repeat' split) <;> simp

theorem audioSepStrat_pres (pt : String) (r : ReelData) :
    (audioSepStrat pt r).username = r.username ∧
    (audioSepStrat pt r).likes = r.likes ∧
    (audioSepStrat pt r).views = r.views ∧
    (audioSepStrat pt r).comments = r.comments ∧
    (audioSepStrat pt r).title = r.title ∧
    (audioSepStrat pt r).description = r.description ∧
    (audioSepStrat pt r).url = r.url ∧
    (audioSepStrat pt r).error = r.error := by
  unfold audioSepStrat
  (repeat' split) <;> simp

theorem audioStatusStrat_pres (pt : String) (r : ReelData) :
    (audioStatusStrat pt r).username = r.username ∧
    (audioStatusStrat pt r).likes = r.likes ∧
    (audioStatusStrat pt r).views = r.views ∧
    (audioStatusStrat pt r).comments = r.comments ∧
    (audioStatusStrat pt r).title = r.title ∧
    (audioStatusStrat pt r).description = r.description ∧
    (audioStatusStrat pt r).url = r.url ∧
    (audioStatusStrat pt r).error = r.error := by
  unfold audioStatusStrat
  (repeat' split) <;> simp

theorem audioFallback_pres (r : ReelData) :
    (audioFallback r).username = r.username ∧
    (audioFallback r).likes = r.likes ∧
    (audioFallback r).views = r.views ∧
    (audioFallback r).comments = r.comments ∧
    (audioFallback r).title = r.title ∧
    (audioFallback r).description = r.description ∧
    (audioFallback r).url = r.url ∧
    (audioFallback r).error = r.error := by
  unfold audioFallback
  split <;> simp

theorem audioStep_pres (d : Doc) (b : Bool) (r : ReelData) :
    (audioStep d b r).username = r.username ∧
    (audioStep d b r).likes = r.likes ∧
    (audioStep d b r).views = r.views ∧
    (audioStep d b r).comments = r.comments ∧
    (audioStep d b r).title = r.title ∧
    (audioStep d b r).description = r.description ∧
    (audioStep d b r).url = r.url ∧
    (audioStep d b r).error = r.error := by
  unfold audioStep audioCore
  obtain ⟨a1, a2, a3, a4, a5, a6, a7, a8⟩ := audioLinkStrat_pres d r
  obtain ⟨b1, b2, b3, b4, b5, b6, b7, b8⟩ :=
    audioSepStrat_pres d.pageText (audioLinkStrat d r)
  obtain ⟨c1, c2, c3, c4, c5, c6, c7, c8⟩ :=
    audioStatusStrat_pres d.pageText (audioSepStrat d.pageText (audioLinkStrat d r))
  obtain ⟨e1, e2, e3, e4, e5, e6, e7, e8⟩ :=
    audioFallback_pres
      (audioStatusStrat d.pageText (audioSepStrat d.pageText (audioLinkStrat d r)))
  split
  · simp
  · exact ⟨e1.trans (c1.trans (b1.trans a1)), e2.trans (c2.trans (b2.trans a2)),
           e3.trans (c3.trans (b3.trans a3)), e4.trans (c4.trans (b4.trans a4)),
           e5.trans (c5.trans (b5.trans a5)), e6.trans (c6.trans (b6.trans a6)),
           e7.trans (c7.trans (b7.trans a7)), e8.trans (c8.trans (b8.trans a8))⟩

theorem captionH1Strat_pres (d : Doc) (r : ReelData) :
    (captionH1Strat d r).username = r.username ∧
    (captionH1Strat d r).audioUsed = r.audioUsed ∧
    (captionH1Strat d r).likes = r.likes ∧
    (captionH1Strat d r).views = r.views ∧
    (captionH1Strat d r).comments = r.comments ∧
    (captionH1Strat d r).url = r.url ∧
    (captionH1Strat d r).error = r.error := by
  unfold captionH1Strat
  (repeat' split) <;> simp

theorem captionSelStrat_pres (d : Doc) (r : ReelData) :
    (captionSelStrat d r).username = r.username ∧
    (captionSelStrat d r).audioUsed = r.audioUsed ∧
    (captionSelStrat d r).likes = r.likes ∧
    (captionSelStrat d r).views = r.views ∧
    (captionSelStrat d r).comments = r.comments ∧
    (captionSelStrat d r).url = r.url ∧
    (captionSelStrat d r).error = r.error := by
  unfold captionSelStrat
  (repeat' split) <;> simp

theorem captionLinesStrat_pres (pt : String) (r : ReelData) :
    (captionLinesStrat pt r).username = r.username ∧
    (captionLinesStrat pt r).audioUsed = r.audioUsed ∧
    (captionLinesStrat pt r).likes = r.likes ∧
    (captionLinesStrat pt r).views = r.views ∧
    (captionLinesStrat pt r).comments = r.comments ∧
    (captionLinesStrat pt r).url = r.url ∧
    (captionLinesStrat pt r).error = r.error := by
  unfold captionLinesStrat
  (repeat' split) <;> simp

theorem captionStep_pres (d : Doc) (r : ReelData) :
    (captionStep d r).username = r.username ∧
    (captionStep d r).audioUsed = r.audioUsed ∧
    (captionStep d r).likes = r.likes ∧
    (captionStep d r).views = r.views ∧
    (captionStep d r).comments = r.comments ∧
    (captionStep d r).url = r.url ∧
    (captionStep d r).error = r.error := by
  unfold captionStep
  obtain ⟨a1, a2, a3, a4, a5, a6, a7⟩ := captionH1Strat_pres d r
  obtain ⟨b1, b2, b3, b4, b5, b6, b7⟩ := captionSelStrat_pres d (captionH1Strat d r)
  obtain ⟨c1, c2, c3, c4, c5, c6, c7⟩ :=
    captionLinesStrat_pres d.pageText (captionSelStrat d (captionH1Strat d r))
  exact ⟨c1.trans (b1.trans a1), c2.trans (b2.trans a2), c3.trans (b3.trans a3),
         c4.trans (b4.trans a4), c5.trans (b5.trans a5), c6.trans (b6.trans a6),
         c7.trans (b7.trans a7)⟩

/-- Every caption strategy of the final script assigns `title` and
`description` the same value, so the caption block preserves their
equality. -/
theorem captionStep_title_eq (d : Doc) (r : ReelData)
    (h : r.title = r.description) :
    (captionStep d r).title = (captionStep d r).description := by
  unfold captionStep captionLinesStrat captionSelStrat captionH1Strat
  (repeat' split) <;> simp_all

/-- The audio block always leaves `audioUsed` present: a strategy value,
the `Audio not detected` sentinel, or (on a fault) the failure
sentinel. -/
theorem audioStep_isSome (d : Doc) (b : Bool) (r : ReelData) :
    (audioStep d b r).audioUsed.isSome = true := by
  unfold audioStep audioCore audioFallback
  split
  · simp
  · split
    · exact truthyS_isSome (by assumption)
    · simp

/-!
## Handler-level lemmas
-/

theorem requestHandler_ok (d : Doc) (f : Faults) (hn : f.nav = none)
    (hr : hasSubS d.finalUrl reelSeg = true) (hp : f.pageTextFail = none) :
    requestHandler d f = (okRecord d f, 1) := by
  unfold requestHandler
  rw [hn, hp, hr]
  simp

theorem okRecord_error (d : Doc) (f : Faults) : (okRecord d f).error = none := by
  have p1 : ∀ r : ReelData, (if f.username then r else usernameStep d r).error = r.error := by
    intro r; split
    · rfl
    · exact (usernameStep_pres d r).2.2.2.2.2.2.2
  have p2 : ∀ r : ReelData, (if f.metrics then r else metricsStep d r).error = r.error := by
    intro r; split
    · rfl
    · exact (metricsStep_pres d r).2.2.2.2.2
  have p3 : ∀ r : ReelData, (audioStep d f.audio r).error = r.error := fun r =>
    (audioStep_pres d f.audio r).2.2.2.2.2.2.2
  have p4 : ∀ r : ReelData, (if f.caption then r else captionStep d r).error = r.error := by
    intro r; split
    · rfl
    · exact (captionStep_pres d r).2.2.2.2.2.2
  simp only [okRecord]
  rw [p4, p3, p2, p1]
  rfl

theorem okRecord_url (d : Doc) (f : Faults) : (okRecord d f).url = d.requestUrl := by
  have p1 : ∀ r : ReelData, (if f.username then r else usernameStep d r).url = r.url := by
    intro r; split
    · rfl
    · exact (usernameStep_pres d r).2.2.2.2.2.2.1
  have p2 : ∀ r : ReelData, (if f.metrics then r else metricsStep d r).url = r.url := by
    intro r; split
    · rfl
    · exact (metricsStep_pres d r).2.2.2.2.1
  have p3 : ∀ r : ReelData, (audioStep d f.audio r).url = r.url := fun r =>
    (audioStep_pres d f.audio r).2.2.2.2.2.2.1
  have p4 : ∀ r : ReelData, (if f.caption then r else captionStep d r).url = r.url := by
    intro r; split
    · rfl
    · exact (captionStep_pres d r).2.2.2.2.2.1
  simp only [okRecord]
  rw [p4, p3, p2, p1]
  rfl

theorem okRecord_audio_isSome (d : Doc) (f : Faults) :
    (okRecord d f).audioUsed.isSome = true := by
  have p4 : ∀ r : ReelData,
      (if f.caption then r else captionStep d r).audioUsed = r.audioUsed := by
    intro r; split
    · rfl
    · exact (captionStep_pres d r).2.1
  simp only [okRecord]
  rw [p4]
  exact audioStep_isSome d f.audio _

theorem okRecord_title_eq (d : Doc) (f : Faults) :
    (okRecord d f).title = (okRecord d f).description := by
  have p1 : ∀ r : ReelData, (if f.username then r else usernameStep d r).title = r.title ∧
      (if f.username then r else usernameStep d r).description = r.description := by
    intro r; split
    · exact ⟨rfl, rfl⟩
    · exact ⟨(usernameStep_pres d r).2.2.2.2.1, (usernameStep_pres d r).2.2.2.2.2.1⟩
  have p2 : ∀ r : ReelData, (if f.metrics then r else metricsStep d r).title = r.title ∧
      (if f.metrics then r else metricsStep d r).description = r.description := by
    intro r; split
    · exact ⟨rfl, rfl⟩
    · exact ⟨(metricsStep_pres d r).2.2.1, (metricsStep_pres d r).2.2.2.1⟩
  have p3 : ∀ r : ReelData, (audioStep d f.audio r).title = r.title ∧
      (audioStep d f.audio r).description = r.description := fun r =>
    ⟨(audioStep_pres d f.audio r).2.2.2.2.1, (audioStep_pres d f.audio r).2.2.2.2.2.1⟩
  have p4 : ∀ r : ReelData, r.title = r.description →
      (if f.caption then r else captionStep d r).title =
      (if f.caption then r else captionStep d r).description := by
    intro r h; split
    · exact h
    · exact captionStep_title_eq d r h
  simp only [okRecord]
  apply p4
  rw [(p3 _).1, (p3 _).2, (p2 _).1, (p2 _).2, (p1 _).1, (p1 _).2]
  rfl

/-- Title always equals description in the final script (every caption
strategy assigns both the same string, and no other code touches
either). -/
theorem requestHandler_title_eq (d : Doc) (f : Faults) :
    (requestHandler d f).1.title = (requestHandler d f).1.description := by
  unfold requestHandler
  cases f.nav <;> cases f.pageTextFail <;>
    by_cases hr : hasSubS d.finalUrl reelSeg = false <;>
    simp [hr, okRecord_title_eq, initReel]

/-- The handler's `error` is absent exactly when navigation succeeded,
the final URL passed the reel check and the page-text snapshot
succeeded. -/
theorem requestHandler_error_iff (d : Doc) (f : Faults) :
    (requestHandler d f).1.error = none ↔
      f.nav = none ∧ hasSubS d.finalUrl reelSeg = true ∧ f.pageTextFail = none := by
  unfold requestHandler
  cases hn : f.nav <;> cases hp : f.pageTextFail <;>
    by_cases hr : hasSubS d.finalUrl reelSeg = false <;>
    simp_all [okRecord_error, initReel]

/-!
## Metric integrality: every metric the final script stores went through
`parseMetric`, hence is a natural number.
-/

/-- An optional JavaScript number that, when present, is a non-negative
integer. -/
def IsNatQ (o : Option ℚ) : Prop := ∀ q, o = some q → ∃ n : ℕ, q = (n : ℚ)

theorem isNatQ_none : IsNatQ none := fun _ h => Option.noConfusion h

theorem isNatQ_parseMetric (s : String) : IsNatQ (some (parseMetric s)) :=
  fun q h => ⟨parseMetricN s, by injection h with h; rw [← h]; rfl⟩

theorem mStep1_isNat {r : ReelData} (m : String)
    (hl : IsNatQ r.likes) (hv : IsNatQ r.views) (hc : IsNatQ r.comments) :
    IsNatQ (mStep1 r m).likes ∧ IsNatQ (mStep1 r m).views ∧
    IsNatQ (mStep1 r m).comments := by
  unfold mStep1
  (repeat' split) <;>
    refine ⟨?_, ?_, ?_⟩ <;>
      first
        | exact hl
        | exact hv
        | exact hc
        | exact isNatQ_parseMetric _

theorem foldl_mStep1_isNat (ms : List String) {r : ReelData}
    (hl : IsNatQ r.likes) (hv : IsNatQ r.views) (hc : IsNatQ r.comments) :
    IsNatQ (ms.foldl mStep1 r).likes ∧ IsNatQ (ms.foldl mStep1 r).views ∧
    IsNatQ (ms.foldl mStep1 r).comments := by
  induction ms generalizing r with
  | nil => exact ⟨hl, hv, hc⟩
  | cons m t ih =>
    simp only [List.foldl_cons]
    obtain ⟨h1, h2, h3⟩ := mStep1_isNat m hl hv hc
    exact ih h1 h2 h3

theorem likesLikedBy_isNat {pt : String} {r : ReelData}
    (hl : IsNatQ r.likes) : IsNatQ (likesLikedBy pt r).likes := by
  unfold likesLikedBy
  (repeat' split) <;> first | exact hl | exact isNatQ_parseMetric _

theorem likesStrat2_isNat {pt : String} {r : ReelData}
    (hl : IsNatQ r.likes) : IsNatQ (likesStrat2 pt r).likes := by
  unfold likesStrat2
  (repeat' split) <;>
    first
      | exact likesLikedBy_isNat hl
      | exact isNatQ_parseMetric _

theorem likesStratGuard_metrics (pt : String) (r : ReelData) :
    (likesStratGuard pt r).views = r.views ∧
    (likesStratGuard pt r).comments = r.comments := by
  unfold likesStratGuard likesStrat2 likesLikedBy
  (repeat' split) <;> simp

theorem viewsStrat_metrics (pt : String) (r : ReelData) :
    (viewsStrat pt r).likes = r.likes ∧
    (viewsStrat pt r).comments = r.comments := by
  unfold viewsStrat
  (repeat' split) <;> simp

theorem commentsLinkStrat_metrics (d : Doc) (r : ReelData) :
    (commentsLinkStrat d r).likes = r.likes ∧
    (commentsLinkStrat d r).views = r.views := by
  unfold commentsLinkStrat
  (repeat' split) <;> simp

theorem commentsRegexStrat_metrics (pt : String) (r : ReelData) :
    (commentsRegexStrat pt r).likes = r.likes ∧
    (commentsRegexStrat pt r).views = r.views := by
  unfold commentsRegexStrat
  (repeat' split) <;> simp

theorem viewsStrat_isNat {pt : String} {r : ReelData}
    (hv : IsNatQ r.views) : IsNatQ (viewsStrat pt r).views := by
  unfold viewsStrat
  (repeat' split) <;> first | exact hv | exact isNatQ_parseMetric _

theorem commentsLinkStrat_isNat {d : Doc} {r : ReelData}
    (hc : IsNatQ r.comments) : IsNatQ (commentsLinkStrat d r).comments := by
  unfold commentsLinkStrat
  (repeat' split) <;> first | exact hc | exact isNatQ_parseMetric _

theorem commentsRegexStrat_isNat {pt : String} {r : ReelData}
    (hc : IsNatQ r.comments) : IsNatQ (commentsRegexStrat pt r).comments := by
  unfold commentsRegexStrat
  (repeat' split) <;> first | exact hc | exact isNatQ_parseMetric _

theorem metricsStep_isNat (d : Doc) {r : ReelData}
    (hl : IsNatQ r.likes) (hv : IsNatQ r.views) (hc : IsNatQ r.comments) :
    IsNatQ (metricsStep d r).likes ∧ IsNatQ (metricsStep d r).views ∧
    IsNatQ (metricsStep d r).comments := by
  unfold metricsStep
  obtain ⟨a1, a2, a3⟩ := foldl_mStep1_isNat (findAllS bigPatM d.pageText) hl hv hc
  generalize (findAllS bigPatM d.pageText).foldl mStep1 r = ra at a1 a2 a3
  have b1 : IsNatQ (likesStratGuard d.pageText ra).likes := by
    unfold likesStratGuard
    split
    · exact likesStrat2_isNat a1
    · exact a1
  have b2 : IsNatQ (likesStratGuard d.pageText ra).views := by
    rw [(likesStratGuard_metrics d.pageText ra).1]; exact a2
  have b3 : IsNatQ (likesStratGuard d.pageText ra).comments := by
    rw [(likesStratGuard_metrics d.pageText ra).2]; exact a3
  generalize likesStratGuard d.pageText ra = rb at b1 b2 b3
  have c1 : IsNatQ (viewsStrat d.pageText rb).likes := by
    rw [(viewsStrat_metrics d.pageText rb).1]; exact b1
  have c2 : IsNatQ (viewsStrat d.pageText rb).views := viewsStrat_isNat b2
  have c3 : IsNatQ (viewsStrat d.pageText rb).comments := by
    rw [(viewsStrat_metrics d.pageText rb).2]; exact b3
  generalize viewsStrat d.pageText rb = rc at c1 c2 c3
  have e1 : IsNatQ (commentsLinkStrat d rc).likes := by
    rw [(commentsLinkStrat_metrics d rc).1]; exact c1
  have e2 : IsNatQ (commentsLinkStrat d rc).views := by
    rw [(commentsLinkStrat_metrics d rc).2]; exact c2
  have e3 : IsNatQ (commentsLinkStrat d rc).comments := commentsLinkStrat_isNat c3
  generalize commentsLinkStrat d rc = re at e1 e2 e3
  refine ⟨?_, ?_, ?_⟩
  · rw [(commentsRegexStrat_metrics d.pageText re).1]; exact e1
  · rw [(commentsRegexStrat_metrics d.pageText re).2]; exact e2
  · exact commentsRegexStrat_isNat e3

theorem okRecord_isNat (d : Doc) (f : Faults) :
    IsNatQ (okRecord d f).likes ∧ IsNatQ (okRecord d f).views ∧
    IsNatQ (okRecord d f).comments := by
  have p4 : ∀ r : ReelData, (if f.caption then r else captionStep d r).likes = r.likes ∧
      (if f.caption then r else captionStep d r).views = r.views ∧
      (if f.caption then r else captionStep d r).comments = r.comments := by
    intro r; split
    · exact ⟨rfl, rfl, rfl⟩
    · exact ⟨(captionStep_pres d r).2.2.1, (captionStep_pres d r).2.2.2.1,
             (captionStep_pres d r).2.2.2.2.1⟩
  have p3 : ∀ r : ReelData, (audioStep d f.audio r).likes = r.likes ∧
      (audioStep d f.audio r).views = r.views ∧
      (audioStep d f.audio r).comments = r.comments := fun r =>
    ⟨(audioStep_pres d f.audio r).2.1, (audioStep_pres d f.audio r).2.2.1,
     (audioStep_pres d f.audio r).2.2.2.1⟩
  have p1 : ∀ r : ReelData, (if f.username then r else usernameStep d r).likes = r.likes ∧
      (if f.username then r else usernameStep d r).views = r.views ∧
      (if f.username then r else usernameStep d r).comments = r.comments := by
    intro r; split
    · exact ⟨rfl, rfl, rfl⟩
    · exact ⟨(usernameStep_pres d r).2.1, (usernameStep_pres d r).2.2.1,
             (usernameStep_pres d r).2.2.2.1⟩
  have p2 : ∀ r : ReelData, IsNatQ r.likes → IsNatQ r.views → IsNatQ r.comments →
      IsNatQ (if f.metrics then r else metricsStep d r).likes ∧
      IsNatQ (if f.metrics then r else metricsStep d r).views ∧
      IsNatQ (if f.metrics then r else metricsStep d r).comments := by
    intro r h1 h2 h3; split
    · exact ⟨h1, h2, h3⟩
    · exact metricsStep_isNat d h1 h2 h3
  obtain ⟨q1, q2, q3⟩ := p2
    (if f.username then initReel d.requestUrl else usernameStep d (initReel d.requestUrl))
    (by rw [(p1 _).1]; exact isNatQ_none)
    (by rw [(p1 _).2.1]; exact isNatQ_none)
    (by rw [(p1 _).2.2]; exact isNatQ_none)
  simp only [okRecord]
  refine ⟨?_, ?_, ?_⟩
  · rw [(p4 _).1, (p3 _).1]; exact q1
  · rw [(p4 _).2.1, (p3 _).2.1]; exact q2
  · rw [(p4 _).2.2, (p3 _).2.2]; exact q3

theorem requestHandler_isNat (d : Doc) (f : Faults) :
    IsNatQ (requestHandler d f).1.likes ∧ IsNatQ (requestHandler d f).1.views ∧
    IsNatQ (requestHandler d f).1.comments := by
  unfold requestHandler
  cases f.nav <;> cases f.pageTextFail <;>
    by_cases hr : hasSubS d.finalUrl reelSeg = false <;>
    simp [hr, okRecord_isNat, initReel, isNatQ_none]

/-!
## Metric extraction under the partial-success scenario
-/

theorem metricsStep_c6 (d : Doc) (r : ReelData) (m nm : String)
    (hl0 : r.likes = none) (hv0 : r.views = none) (hc0 : r.comments = none)
    (hbig : findAllS bigPatM d.pageText = [])
    (h1 : findFirstS likesPat1M d.pageText = some m)
    (h2 : findFirstS numTokM m = some nm)
    (hv : findFirstS viewsPatM d.pageText = none)
    (hq : d.query commentsLinkSel = [])
    (hcm : findFirstS commentsPatM d.pageText = none) :
    (metricsStep d r).likes = some (parseMetric nm) ∧
    (metricsStep d r).views = none ∧ (metricsStep d r).comments = none := by
  unfold metricsStep
  rw [hbig]
  simp only [List.foldl_nil]
  have hg : likesStratGuard d.pageText r = { r with likes := some (parseMetric nm) } := by
    unfold likesStratGuard likesStrat2
    rw [if_pos (by rw [hl0]; rfl), h1]
    simp only [h2]
  rw [hg]
  have h3 : viewsStrat d.pageText { r with likes := some (parseMetric nm) } =
      { r with likes := some (parseMetric nm) } := by
    unfold viewsStrat
    rw [if_pos (by simp only; rw [hv0]; rfl), hv]
  rw [h3]
  have h4 : commentsLinkStrat d { r with likes := some (parseMetric nm) } =
      { r with likes := some (parseMetric nm) } := by
    unfold commentsLinkStrat
    rw [if_pos (by simp only; rw [hc0]; rfl), hq]
    rfl
  rw [h4]
  have h5 : commentsRegexStrat d.pageText { r with likes := some (parseMetric nm) } =
      { r with likes := some (parseMetric nm) } := by
    unfold commentsRegexStrat
    rw [if_pos (by simp only; rw [hc0]; rfl), hcm]
  rw [h5]
  exact ⟨rfl, hv0, hc0⟩

/-!
## Audio sentinel computation
-/

theorem audioCore_sentinel (d : Doc) (r : ReelData)
    (h0 : r.audioUsed = none)
    (hq : d.query audioLinkSel = [])
    (hsep : findAllS audioSepPatM d.pageText = [])
    (hst : audioStatusWords.findSome? (fun w => findFirstS (ciLit w) d.pageText) = none) :
    audioCore d r = { r with audioUsed := some "Audio not detected" } := by
  have s1 : audioLinkStrat d r = r := by
    unfold audioLinkStrat
    rw [hq]
    rfl
  have s2 : audioSepStrat d.pageText r = r := by
    unfold audioSepStrat
    rw [if_neg (by rw [h0]; simp [truthyS]), hsep]
    rfl
  have s3 : audioStatusStrat d.pageText r = r := by
    unfold audioStatusStrat
    rw [if_neg (by rw [h0]; simp [truthyS]), hst]
  have s4 : audioFallback r = { r with audioUsed := some "Audio not detected" } := by
    unfold audioFallback
    rw [if_neg (by rw [h0]; simp [truthyS])]
  unfold audioCore
  rw [s1, s2, s3, s4]

theorem okRecord_audio_pre (d : Doc) (f : Faults) :
    (audioStep d f.audio
      ((fun r2 => r2)
        (if f.metrics
          then (if f.username then initReel d.requestUrl
                else usernameStep d (initReel d.requestUrl))
          else metricsStep d
            (if f.username then initReel d.requestUrl
             else usernameStep d (initReel d.requestUrl))))).audioUsed =
    (okRecord d f).audioUsed := by
  have p4 : ∀ r : ReelData,
      (if f.caption then r else captionStep d r).audioUsed = r.audioUsed := by
    intro r; split
    · rfl
    · exact (captionStep_pres d r).2.1
  simp only [okRecord]
  rw [p4]

theorem okRecord_audio_sentinel (d : Doc) (f : Faults) (hfa : f.audio = false)
    (hq : d.query audioLinkSel = [])
    (hsep : findAllS audioSepPatM d.pageText = [])
    (hst : audioStatusWords.findSome? (fun w => findFirstS (ciLit w) d.pageText) = none) :
    (okRecord d f).audioUsed = some "Audio not detected" := by
  rw [← okRecord_audio_pre d f]
  simp only
  have h0 : (if f.metrics
      then (if f.username then initReel d.requestUrl
            else usernameStep d (initReel d.requestUrl))
      else metricsStep d
        (if f.username then initReel d.requestUrl
         else usernameStep d (initReel d.requestUrl))).audioUsed = none := by
    have p1 : (if f.username then initReel d.requestUrl
        else usernameStep d (initReel d.requestUrl)).audioUsed = none := by
      split
      · rfl
      · exact (usernameStep_pres d _).1
    split
    · exact p1
    · exact (metricsStep_pres d _).2.1.trans p1
  rw [hfa]
  show (audioStep d false _).audioUsed = _
  unfold audioStep
  simp only [Bool.false_eq_true, if_false]
  rw [audioCore_sentinel d _ h0 hq hsep hst]

theorem okRecord_audio_fault (d : Doc) (f : Faults) (hfa : f.audio = true) :
    (okRecord d f).audioUsed = some "Audio extraction failed" := by
  rw [← okRecord_audio_pre d f]
  simp only
  rw [hfa]
  show (audioStep d true _).audioUsed = _
  unfold audioStep
  simp

/-!
## Username inversion: what a resolved username must have passed
-/

theorem findSome?_inv {α β : Type} (f : α → Option β) (l : List α) (b : β)
    (h : l.findSome? f = some b) : ∃ a ∈ l, f a = some b := by
  induction l with
  | nil => simp [List.findSome?] at h
  | cons x t ih =>
    rw [List.findSome?_cons] at h
    cases hx : f x with
    | some v =>
      rw [hx] at h
      injection h with h
      exact ⟨x, by simp, by rw [hx, h]⟩
    | none =>
      rw [hx] at h
      obtain ⟨a, ha, hfa⟩ := ih h
      exact ⟨a, by simp [ha], hfa⟩

theorem profileSegAt_spec {l seg : List Char} (h : profileSegAt l = some seg) :
    seg ≠ [] := by
  simp only [profileSegAt] at h
  split at h
  · split at h
    · rename_i hcond
      injection h with h
      subst h
      exact hcond.1
    · exact absurd h (by simp)
  · exact absurd h (by simp)

theorem scanProfile_spec {l seg : List Char} (h : scanProfile l = some seg) :
    seg ≠ [] := by
  induction l with
  | nil => simp [scanProfile] at h
  | cons c t ih =>
    unfold scanProfile at h
    cases hp : profileSegAt (c :: t) with
    | some s =>
      rw [hp] at h
      injection h with h
      subst h
      exact profileSegAt_spec hp
    | none =>
      rw [hp] at h
      exact ih h

theorem matchProfileHref_ne_empty {h : String} {u : String}
    (hm : matchProfileHref h = some u) : u ≠ "" := by
  unfold matchProfileHref at hm
  cases hs : scanProfile h.data with
  | none => rw [hs] at hm; exact absurd hm (by simp)
  | some seg =>
    rw [hs] at hm
    simp only [Option.map_some'] at hm
    injection hm with hm
    subst hm
    intro he
    exact scanProfile_spec hs (by simpa [String.ext_iff] using he)

theorem hrefCand_spec {e : Elem} {u : String} (h : hrefCand e = some u) :
    u ≠ "" ∧ 1 < u.length ∧ hasSubS u "accounts" = false ∧
    hasSubS u "reel" = false ∧ hasSubS u "audio" = false ∧
    hasSubS u "explore" = false := by
  unfold hrefCand at h
  split at h
  · exact absurd h (by simp)
  · rename_i hs hhref
    split at h
    · exact absurd h (by simp)
    · split at h
      · exact absurd h (by simp)
      · rename_i seg hseg
        split at h
        · rename_i hcond
          injection h with h
          subst h
          exact ⟨matchProfileHref_ne_empty hseg, hcond.2.2.2.2, hcond.1,
                 hcond.2.1, hcond.2.2.1, hcond.2.2.2.1⟩
        · exact absurd h (by simp)

theorem textCand_spec {e : Elem} {u : String} (h : textCand e = some u) :
    ∃ t, e.text = some t ∧ u = trimS t ∧ trimS t ≠ "" ∧
      hasSubS t "Follow" = false ∧ hasSubS t "Sign" = false ∧
      hasSubS t "Log" = false ∧ hasSubS t "•" = false ∧
      1 < t.length ∧ t.length < 30 := by
  unfold textCand at h
  split at h
  · exact absurd h (by simp)
  · rename_i t htext
    split at h
    · rename_i hcond
      injection h with h
      exact ⟨t, htext, h.symm, hcond.2.1, hcond.2.2.1, hcond.2.2.2.1,
             hcond.2.2.2.2.1, hcond.2.2.2.2.2.1, hcond.2.2.2.2.2.2.1,
             hcond.2.2.2.2.2.2.2⟩
    · exact absurd h (by simp)

theorem headerCand_spec {e : Elem} {u : String} (h : headerCand e = some u) :
    u ≠ "" ∧ hasSubS u "accounts" = false := by
  unfold headerCand at h
  split at h
  · exact absurd h (by simp)
  · rename_i hs hhref
    split at h
    · exact absurd h (by simp)
    · split at h
      · exact absurd h (by simp)
      · rename_i seg hseg
        split at h
        · injection h with h
          subst h
          exact ⟨matchProfileHref_ne_empty hseg, by assumption⟩
        · exact absurd h (by simp)

theorem firstLinkUsername_spec {es : List Elem} {u : String}
    (h : firstLinkUsername es = some u) :
    ∃ e ∈ es, hrefCand e = some u ∨ textCand e = some u := by
  induction es with
  | nil => simp [firstLinkUsername] at h
  | cons e t ih =>
    unfold firstLinkUsername at h
    cases h1 : hrefCand e with
    | some v =>
      rw [h1] at h
      injection h with h
      exact ⟨e, by simp, Or.inl (by rw [h1, h])⟩
    | none =>
      rw [h1] at h
      cases h2 : textCand e with
      | some v =>
        rw [h2] at h
        injection h with h
        exact ⟨e, by simp, Or.inr (by rw [h2, h])⟩
      | none =>
        rw [h2] at h
        obtain ⟨e2, he2, hc⟩ := ih h
        exact ⟨e2, by simp [he2], hc⟩

theorem extractUsername_spec {d : Doc} {u : String}
    (h : extractUsername d = some u) :
    (∃ e ∈ d.query profileLinksSel, hrefCand e = some u ∨ textCand e = some u) ∨
    (∃ sel ∈ headerSels, ∃ e, (d.query sel).head? = some e ∧ headerCand e = some u) := by
  unfold extractUsername at h
  cases h1 : firstLinkUsername (d.query profileLinksSel) with
  | some v =>
    rw [h1] at h
    injection h with h
    subst h
    exact Or.inl (firstLinkUsername_spec h1)
  | none =>
    rw [h1] at h
    obtain ⟨sel, hsel, hfs⟩ := findSome?_inv _ _ _ h
    cases hh : (d.query sel).head? with
    | none => rw [hh] at hfs; exact absurd hfs (by simp)
    | some e =>
      rw [hh] at hfs
      simp only [Option.some_bind] at hfs
      exact Or.inr ⟨sel, hsel, e, hh, hfs⟩

theorem extractUsername_ne_empty {d : Doc} {u : String}
    (h : extractUsername d = some u) : u ≠ "" := by
  rcases extractUsername_spec h with ⟨e, _, hc | hc⟩ | ⟨sel, _, e, _, hc⟩
  · exact (hrefCand_spec hc).1
  · obtain ⟨t, _, hu, hne, _⟩ := textCand_spec hc
    rw [hu]
    exact hne
  · exact (headerCand_spec hc).1

theorem okRecord_username_inv {d : Doc} {f : Faults} {u : String}
    (h : (okRecord d f).username = some u) : extractUsername d = some u := by
  have p4 : ∀ r : ReelData,
      (if f.caption then r else captionStep d r).username = r.username := by
    intro r; split
    · rfl
    · exact (captionStep_pres d r).1
  have p3 : ∀ r : ReelData, (audioStep d f.audio r).username = r.username := fun r =>
    (audioStep_pres d f.audio r).1
  have p2 : ∀ r : ReelData,
      (if f.metrics then r else metricsStep d r).username = r.username := by
    intro r; split
    · rfl
    · exact (metricsStep_pres d r).1
  simp only [okRecord] at h
  rw [p4, p3, p2] at h
  split at h
  · exact absurd h (by simp [initReel])
  · unfold usernameStep at h
    cases he : extractUsername d with
    | none => rw [he] at h; exact absurd h (by simp [initReel])
    | some v =>
      rw [he] at h
      have hvu : v = u := by simpa using h
      rw [hvu]

theorem requestHandler_username_inv {d : Doc} {f : Faults} {u : String}
    (h : (requestHandler d f).1.username = some u) : extractUsername d = some u := by
  revert h
  unfold requestHandler
  cases f.nav <;> cases f.pageTextFail <;>
    by_cases hr : hasSubS d.finalUrl reelSeg = false <;>
    simp [hr, initReel] <;> exact fun h => okRecord_username_inv h

theorem okRecord_noFaults_metricFields (d : Doc) :
    (okRecord d noFaults).likes =
      (metricsStep d (usernameStep d (initReel d.requestUrl))).likes ∧
    (okRecord d noFaults).views =
      (metricsStep d (usernameStep d (initReel d.requestUrl))).views ∧
    (okRecord d noFaults).comments =
      (metricsStep d (usernameStep d (initReel d.requestUrl))).comments := by
  simp only [okRecord, noFaults, Bool.false_eq_true, if_false]
  have hc := captionStep_pres d
    (audioStep d false (metricsStep d (usernameStep d (initReel d.requestUrl))))
  have ha := audioStep_pres d false (metricsStep d (usernameStep d (initReel d.requestUrl)))
  exact ⟨hc.2.2.1.trans ha.2.1, hc.2.2.2.1.trans ha.2.2.1,
         hc.2.2.2.2.1.trans ha.2.2.2.1⟩

theorem requestHandler_redirect (d : Doc) (f : Faults) (hn : f.nav = none)
    (hr : hasSubS d.finalUrl reelSeg = false) :
    requestHandler d f =
      ({ initReel d.requestUrl with
          error := some ("Redirected away from reel: " ++ d.finalUrl) }, 1) := by
  unfold requestHandler
  rw [hn]
  simp [hr]

/-!
## Caption and title derivation facts for the earlier scripts
-/

theorem captionAssignMain_spec (c : String) (r : ReelData)
    (hacc : c ≠ "" ∧ trimS c ≠ "" ∧ 10 < c.length) :
    (captionAssignMain c r).description = some (trimS c) ∧
    ((firstLineTrim c).length ≤ 100 →
      (captionAssignMain c r).title = some (firstLineTrim c)) ∧
    (100 < (firstLineTrim c).length → (captionAssignMain c r).title = r.title) := by
  unfold captionAssignMain
  rw [if_pos hacc]
  dsimp only
  refine ⟨?_, ?_, ?_⟩
  · split <;> simp
  · intro h
    rw [if_pos h]
  · intro h
    rw [if_neg (by omega)]

theorem captionAssignV2_spec (c : String) (r : ReelData)
    (hacc : c ≠ "" ∧ 10 < (trimS c).length ∧ hasSubS c "likes" = false ∧
      hasSubS c "views" = false) :
    (captionAssignV2 c r).description = some (trimS c) ∧
    ((firstLineTrim c).length ≤ 100 ∧ 3 < (firstLineTrim c).length →
      (captionAssignV2 c r).title = some (firstLineTrim c)) ∧
    (¬((firstLineTrim c).length ≤ 100 ∧ 3 < (firstLineTrim c).length) →
      (captionAssignV2 c r).title = r.title) := by
  unfold captionAssignV2
  rw [if_pos hacc]
  dsimp only
  refine ⟨?_, ?_, ?_⟩
  · split <;> simp
  · intro h
    rw [if_pos h]
  · intro h
    rw [if_neg h]

/-!
## The claims
-/

/-- C1: the numeric normalizer `parseMetric` strips commas and
whitespace from every input, applies the magnitude multiplier
`K` → 1 000 / `M` → 1 000 000 / `B` → 1 000 000 000 (absent suffix → 1)
and rounds to the nearest integer; in particular it maps `1.2K` to
1200, `817,242` to 817242, `2.5M` to 2500000 and the empty string to 0.
Stated as: invariance under removing commas and whitespace, exact
evaluation on digit literals with and without each magnitude letter, and
the four quoted examples. -/
theorem claim1_parseMetric_normalizer :
    (∀ s : String, parseMetricN s =
        parseMetricN ⟨s.data.filter (fun c => !(c == ',' || isWsC c))⟩) ∧
    (∀ l : List Char, (∀ c ∈ l, isDig c = true) → l ≠ [] →
        parseMetricN ⟨l⟩ = natOfDigits l ∧
        parseMetricN ⟨l ++ ['K']⟩ = 1000 * natOfDigits l ∧
        parseMetricN ⟨l ++ ['M']⟩ = 1000000 * natOfDigits l ∧
        parseMetricN ⟨l ++ ['B']⟩ = 1000000000 * natOfDigits l) ∧
    parseMetricN "1.2K" = 1200 ∧ parseMetricN "817,242" = 817242 ∧
    parseMetricN "2.5M" = 2500000 ∧ parseMetricN "" = 0 := by
  refine ⟨parseMetricN_strip, ?_, by decide, by decide, by decide, by decide⟩
  intro l hdig hne
  have hB0 : isDig 'B' = false := by decide
  have hM0 : isDig 'M' = false := by decide
  have hK0 : isDig 'K' = false := by decide
  have hK := @parseMetricN_digits_suffix l hdig hne 'K' (by decide) (by decide) hK0
  have hM := @parseMetricN_digits_suffix l hdig hne 'M' (by decide) (by decide) hM0
  have hB := @parseMetricN_digits_suffix l hdig hne 'B' (by decide) (by decide) hB0
  have hmK : multKMB (l ++ ['K']) = 1000 := by
    unfold multKMB
    rw [not_contains_append (digits_not_contains hdig hB0) (by decide),
        not_contains_append (digits_not_contains hdig hM0) (by decide),
        contains_append_single l 'K']
    rfl
  have hmM : multKMB (l ++ ['M']) = 1000000 := by
    unfold multKMB
    rw [not_contains_append (digits_not_contains hdig hB0) (by decide),
        contains_append_single l 'M']
    rfl
  have hmB : multKMB (l ++ ['B']) = 1000000000 := by
    unfold multKMB
    rw [contains_append_single l 'B']
    rfl
  refine ⟨parseMetricN_digits hdig hne, ?_, ?_, ?_⟩
  · rw [hK, hmK, Nat.mul_comm]
  · rw [hM, hmM, Nat.mul_comm]
  · rw [hB, hmB, Nat.mul_comm]

/-- Witness for C1 at the digit literal `42`: the digit-string laws apply
and give `42K ↦ 42000`. -/
theorem claim1_witness :
    (∀ c ∈ ("42" : String).data, isDig c = true) ∧ ("42" : String).data ≠ [] ∧
    parseMetricN ⟨("42" : String).data ++ ['K']⟩ = 1000 * natOfDigits ("42" : String).data := by
  refine ⟨by decide, by decide, ?_⟩
  exact (claim1_parseMetric_normalizer.2.1 ("42" : String).data
    (by decide) (by decide)).2.1

/-- C9: the normalizer round-trips every non-negative integer rendered
back in a literal form it accepts — plain digits (`renderNat`) and
comma-grouped digits (`commaGroup`). -/
theorem claim9_roundtrip (n : ℕ) :
    parseMetricN (renderNat n) = n ∧ parseMetricN (commaGroup n) = n :=
  ⟨parseMetricN_renderNat n, parseMetricN_commaGroup n⟩

/-- C7: every invocation of the handler pushes exactly one record,
whether it succeeds, partially succeeds or fails fatally. -/
theorem claim7_one_push (d : Doc) (f : Faults) : (requestHandler d f).2 = 1 := by
  unfold requestHandler
  cases f.nav <;> cases f.pageTextFail <;>
    by_cases hr : hasSubS d.finalUrl reelSeg = false <;> simp [hr]

/-- C5: when the final resolved URL lacks the reel path segment, the
extraction aborts before any metric strategy runs — the record carries
the descriptive redirect error, no likes/views/comments, and is still
pushed exactly once. -/
theorem claim5_redirect_abort (d : Doc) (f : Faults) (hn : f.nav = none)
    (hr : hasSubS d.finalUrl reelSeg = false) :
    (requestHandler d f).1.error =
      some ("Redirected away from reel: " ++ d.finalUrl) ∧
    (requestHandler d f).1.likes = none ∧
    (requestHandler d f).1.views = none ∧
    (requestHandler d f).1.comments = none ∧
    (requestHandler d f).2 = 1 := by
  rw [requestHandler_redirect d f hn hr]
  exact ⟨rfl, rfl, rfl, rfl, rfl⟩

/-- Witness for C5 on a document whose final URL is not a reel. -/
theorem claim5_witness :
    hasSubS "https://www.example.com/" reelSeg = false ∧
    (requestHandler ⟨"u", "https://www.example.com/", "", fun _ => []⟩
        noFaults).1.error =
      some ("Redirected away from reel: " ++ "https://www.example.com/") ∧
    (requestHandler ⟨"u", "https://www.example.com/", "", fun _ => []⟩
        noFaults).1.likes = none := by
  have h := claim5_redirect_abort ⟨"u", "https://www.example.com/", "", fun _ => []⟩
    noFaults rfl (by decide)
  exact ⟨by decide, h.1, h.2.1⟩

/-- C2: in every result without an error the `audioUsed` field is
present, and when every audio strategy fails to match (and the audio
block does not throw) it is the fixed sentinel `Audio not detected`. -/
theorem claim2_audio_never_absent (d : Doc) (f : Faults) :
    ((requestHandler d f).1.error = none →
      (requestHandler d f).1.audioUsed.isSome = true) ∧
    ((requestHandler d f).1.error = none → f.audio = false →
      d.query audioLinkSel = [] →
      findAllS audioSepPatM d.pageText = [] →
      audioStatusWords.findSome? (fun w => findFirstS (ciLit w) d.pageText) = none →
      (requestHandler d f).1.audioUsed = some "Audio not detected") := by
  constructor
  · intro he
    obtain ⟨hn, hr, hp⟩ := (requestHandler_error_iff d f).mp he
    rw [requestHandler_ok d f hn hr hp]
    exact okRecord_audio_isSome d f
  · intro he hfa hq hsep hst
    obtain ⟨hn, hr, hp⟩ := (requestHandler_error_iff d f).mp he
    rw [requestHandler_ok d f hn hr hp]
    exact okRecord_audio_sentinel d f hfa hq hsep hst

/-- Witness for C2 on a reel document with no audio markers at all. -/
theorem claim2_witness :
    (requestHandler ⟨"u", "https://www.instagram.com/reel/x", "", fun _ => []⟩
        noFaults).1.error = none ∧
    (requestHandler ⟨"u", "https://www.instagram.com/reel/x", "", fun _ => []⟩
        noFaults).1.audioUsed = some "Audio not detected" := by
  refine ⟨by decide, ?_⟩
  exact (claim2_audio_never_absent
      ⟨"u", "https://www.instagram.com/reel/x", "", fun _ => []⟩ noFaults).2
    (by decide) rfl rfl (by decide) (by decide)

/-- C10: an exception thrown inside the audio block does not propagate —
the result still carries no error, and `audioUsed` is set to the second
sentinel `Audio extraction failed`, distinct from `Audio not
detected`. -/
theorem claim10_audio_catch (d : Doc) (f : Faults) (hn : f.nav = none)
    (hr : hasSubS d.finalUrl reelSeg = true) (hp : f.pageTextFail = none)
    (hfa : f.audio = true) :
    (requestHandler d f).1.audioUsed = some "Audio extraction failed" ∧
    (requestHandler d f).1.error = none ∧
    "Audio extraction failed" ≠ "Audio not detected" := by
  rw [requestHandler_ok d f hn hr hp]
  exact ⟨okRecord_audio_fault d f hfa, okRecord_error d f, by decide⟩

/-- Witness for C10: the audio block throws on an otherwise healthy
document. -/
theorem claim10_witness :
    (requestHandler ⟨"u", "https://www.instagram.com/reel/x", "", fun _ => []⟩
        ⟨none, none, false, false, true, false⟩).1.audioUsed =
      some "Audio extraction failed" ∧
    (requestHandler ⟨"u", "https://www.instagram.com/reel/x", "", fun _ => []⟩
        ⟨none, none, false, false, true, false⟩).1.error = none := by
  have h := claim10_audio_catch
    ⟨"u", "https://www.instagram.com/reel/x", "", fun _ => []⟩
    ⟨none, none, false, false, true, false⟩ rfl (by decide) rfl rfl
  exact ⟨h.1, h.2.1⟩

/-- C6: metrics are resolved independently — on a fault-free reel
document whose text matches a likes pattern but matches no views or
comments pattern (and which has no comments-link element), the result
has `likes` set, `views` and `comments` absent, and no error. -/
theorem claim6_partial_success (d : Doc) (m nm : String)
    (hr : hasSubS d.finalUrl reelSeg = true)
    (hbig : findAllS bigPatM d.pageText = [])
    (h1 : findFirstS likesPat1M d.pageText = some m)
    (h2 : findFirstS numTokM m = some nm)
    (hv : findFirstS viewsPatM d.pageText = none)
    (hq : d.query commentsLinkSel = [])
    (hcm : findFirstS commentsPatM d.pageText = none) :
    (requestHandler d noFaults).1.likes = some (parseMetric nm) ∧
    (requestHandler d noFaults).1.views = none ∧
    (requestHandler d noFaults).1.comments = none ∧
    (requestHandler d noFaults).1.error = none := by
  rw [requestHandler_ok d noFaults rfl hr rfl]
  obtain ⟨k1, k2, k3⟩ := okRecord_noFaults_metricFields d
  have hu := usernameStep_pres d (initReel d.requestUrl)
  obtain ⟨m1, m2, m3⟩ := metricsStep_c6 d (usernameStep d (initReel d.requestUrl)) m nm
    hu.2.1 hu.2.2.1 hu.2.2.2.1 hbig h1 h2 hv hq hcm
  exact ⟨k1.trans m1, k2.trans m2, k3.trans m3, okRecord_error d noFaults⟩

/-- Witness for C6 on a document whose text is `1.2K likes`. -/
theorem claim6_witness :
    (requestHandler ⟨"u", "https://www.instagram.com/reel/x", "1.2K likes",
        fun _ => []⟩ noFaults).1.likes = some (parseMetric "1.2K") ∧
    (requestHandler ⟨"u", "https://www.instagram.com/reel/x", "1.2K likes",
        fun _ => []⟩ noFaults).1.views = none ∧
    (requestHandler ⟨"u", "https://www.instagram.com/reel/x", "1.2K likes",
        fun _ => []⟩ noFaults).1.comments = none ∧
    (requestHandler ⟨"u", "https://www.instagram.com/reel/x", "1.2K likes",
        fun _ => []⟩ noFaults).1.error = none :=
  claim6_partial_success
    ⟨"u", "https://www.instagram.com/reel/x", "1.2K likes", fun _ => []⟩
    "1.2K likes" "1.2K" (by decide) (by decide) (by decide) (by decide)
    (by decide) rfl (by decide)

/-- C3 counterexample: in the final script's H1 caption strategy (the
caption code the claim cites), `title` is assigned the full trimmed
caption, not its first line — on the caption `Hello world\nrest of the
caption`, whose first line is 11 ≤ 100 characters, `title` is the whole
caption rather than `Hello world`. -/
theorem claim3_counterexample :
    (requestHandler
        ⟨"u", "https://www.instagram.com/reel/x", "",
          fun sel => if sel = h1CaptionSel then
            [⟨none, some "Hello world\nrest of the caption"⟩] else []⟩
        noFaults).1.title = some "Hello world\nrest of the caption" ∧
    firstLineTrim "Hello world\nrest of the caption" = "Hello world" ∧
    (firstLineTrim "Hello world\nrest of the caption").length ≤ 100 ∧
    some "Hello world\nrest of the caption" ≠ some "Hello world" := by
  refine ⟨by decide, by decide, by decide, by decide⟩

/-- C3 amended: in the final script every caption strategy sets `title`
equal to `description` (the full trimmed caption, no length rule at
all); the claimed first-line derivation holds for the two earlier
variants — in main.ts, an accepted caption's trimmed first line is the
title exactly when its length is at most 100; in the middle variant's
caption-container path, exactly when its length is at most 100 and
greater than 3. -/
theorem claim3_title_derivation :
    (∀ (d : Doc) (f : Faults),
      (requestHandler d f).1.title = (requestHandler d f).1.description) ∧
    (∀ (c : String) (r : ReelData), c ≠ "" → trimS c ≠ "" → 10 < c.length →
      r.title = none →
      ((captionAssignMain c r).title = some (firstLineTrim c) ↔
        (firstLineTrim c).length ≤ 100) ∧
      (captionAssignMain c r).description = some (trimS c)) ∧
    (∀ (c : String) (r : ReelData), c ≠ "" → 10 < (trimS c).length →
      hasSubS c "likes" = false → hasSubS c "views" = false → r.title = none →
      ((captionAssignV2 c r).title = some (firstLineTrim c) ↔
        ((firstLineTrim c).length ≤ 100 ∧ 3 < (firstLineTrim c).length)) ∧
      (captionAssignV2 c r).description = some (trimS c)) := by
  refine ⟨requestHandler_title_eq, ?_, ?_⟩
  · intro c r h1 h2 h3 h0
    obtain ⟨hd, hpos, hneg⟩ := captionAssignMain_spec c r ⟨h1, h2, h3⟩
    refine ⟨⟨?_, ?_⟩, hd⟩
    · intro ht
      by_contra hlen
      rw [hneg (by omega), h0] at ht
      exact Option.noConfusion ht
    · exact hpos
  · intro c r h1 h2 h3 h4 h0
    obtain ⟨hd, hpos, hneg⟩ := captionAssignV2_spec c r ⟨h1, h2, h3, h4⟩
    refine ⟨⟨?_, ?_⟩, hd⟩
    · intro ht
      by_contra hlen
      rw [hneg hlen, h0] at ht
      exact Option.noConfusion ht
    · exact hpos

/-- Witness for C3 on the caption `Hello world` + remainder in the
main.ts variant. -/
theorem claim3_witness :
    (captionAssignMain "Hello world\nrest of the caption" (initReel "u")).title =
      some (firstLineTrim "Hello world\nrest of the caption") ∧
    (captionAssignMain "Hello world\nrest of the caption" (initReel "u")).description =
      some (trimS "Hello world\nrest of the caption") := by
  have h := claim3_title_derivation.2.1 "Hello world\nrest of the caption"
    (initReel "u") (by decide) (by decide) (by decide) rfl
  exact ⟨h.1.mpr (by decide), h.2⟩

/-- C4 counterexample: the header username path checks only for the
substring `accounts`, so a header profile link whose captured segment is
the reserved reel path yields `username = "reel"` on an error-free
extraction — the claim says a reserved path segment is never
returned. -/
theorem claim4_counterexample :
    (requestHandler
        ⟨"u", "https://www.instagram.com/reel/x", "",
          fun sel => if sel = "header h2 a" then
            [⟨some "https://www.instagram.com/reel", some "x"⟩] else []⟩
        noFaults).1.username = some "reel" ∧
    (requestHandler
        ⟨"u", "https://www.instagram.com/reel/x", "",
          fun sel => if sel = "header h2 a" then
            [⟨some "https://www.instagram.com/reel", some "x"⟩] else []⟩
        noFaults).1.error = none := by
  refine ⟨by decide, by decide⟩

/-- C4 amended: a resolved username is always non-empty and always comes
from one of the three filters actually present in the code — the
profile-link href filter (segment longer than one character, containing
none of `accounts`/`reel`/`audio`/`explore`), the link-text filter (raw
text of length strictly between 1 and 30 containing none of
`Follow`/`Sign`/`Log`/`•`, stored trimmed), or the header href filter
(segment merely free of `accounts`).  The claimed blanket guarantees
(length < 30, chrome exclusion, rejection of every reserved segment)
hold only on their own paths. -/
theorem claim4_username_filters :
    (∀ (d : Doc) (f : Faults) (u : String),
      (requestHandler d f).1.username = some u → u ≠ "") ∧
    (∀ (e : Elem) (u : String), textCand e = some u →
      ∃ t, e.text = some t ∧ u = trimS t ∧ trimS t ≠ "" ∧
        hasSubS t "Follow" = false ∧ hasSubS t "Sign" = false ∧
        hasSubS t "Log" = false ∧ hasSubS t "•" = false ∧
        1 < t.length ∧ t.length < 30) ∧
    (∀ (e : Elem) (u : String), hrefCand e = some u →
      1 < u.length ∧ hasSubS u "accounts" = false ∧ hasSubS u "reel" = false ∧
      hasSubS u "audio" = false ∧ hasSubS u "explore" = false) ∧
    (∀ (e : Elem) (u : String), headerCand e = some u →
      u ≠ "" ∧ hasSubS u "accounts" = false) ∧
    (∀ (d : Doc) (f : Faults) (u : String),
      (requestHandler d f).1.username = some u →
      (∃ e ∈ d.query profileLinksSel, hrefCand e = some u ∨ textCand e = some u) ∨
      (∃ sel ∈ headerSels, ∃ e, (d.query sel).head? = some e ∧
        headerCand e = some u)) := by
  refine ⟨?_, ?_, ?_, ?_, ?_⟩
  · intro d f u h
    exact extractUsername_ne_empty (requestHandler_username_inv h)
  · intro e u h
    exact textCand_spec h
  · intro e u h
    obtain ⟨h1, h2, h3, h4, h5, h6⟩ := hrefCand_spec h
    exact ⟨h2, h3, h4, h5, h6⟩
  · intro e u h
    exact headerCand_spec h
  · intro d f u h
    exact extractUsername_spec (requestHandler_username_inv h)

/-- Witness for C4 on the header-link document: the resolved `reel`
username is non-empty and is traced back to the header filter. -/
theorem claim4_witness :
    ("reel" : String) ≠ "" ∧
    ((∃ e ∈ (⟨"u", "https://www.instagram.com/reel/x", "",
          fun sel => if sel = "header h2 a" then
            [⟨some "https://www.instagram.com/reel", some "x"⟩] else []⟩ :
        Doc).query profileLinksSel,
        hrefCand e = some "reel" ∨ textCand e = some "reel") ∨
      (∃ sel ∈ headerSels, ∃ e,
        ((⟨"u", "https://www.instagram.com/reel/x", "",
          fun sel => if sel = "header h2 a" then
            [⟨some "https://www.instagram.com/reel", some "x"⟩] else []⟩ :
        Doc).query sel).head? = some e ∧ headerCand e = some "reel")) := by
  refine ⟨?_, ?_⟩
  · exact claim4_username_filters.1
      ⟨"u", "https://www.instagram.com/reel/x", "",
        fun sel => if sel = "header h2 a" then
          [⟨some "https://www.instagram.com/reel", some "x"⟩] else []⟩
      noFaults "reel" (by decide)
  · exact claim4_username_filters.2.2.2.2
      ⟨"u", "https://www.instagram.com/reel/x", "",
        fun sel => if sel = "header h2 a" then
          [⟨some "https://www.instagram.com/reel", some "x"⟩] else []⟩
      noFaults "reel" (by decide)

/-- The raw JSON count `5/2` used by the C8 counterexample. -/
def q52 : ℚ := ⟨5, 2, by norm_num, by norm_num⟩

/-- C8 counterexample: the middle script's internal-API strategy copies
the embedded `shortcode_media` counts into the record without any
validation, so a fractional JSON count (here `5/2`) lands verbatim in
`likes` — not a non-negative integer, contrary to the claim that every
resolved metric is one regardless of strategy. -/
theorem claim8_counterexample :
    (applyInternalApi ⟨none, some q52, none, none, none⟩ (initReel "u")).likes =
      some q52 ∧
    ¬ IsNatQ (applyInternalApi ⟨none, some q52, none, none, none⟩
        (initReel "u")).likes := by
  refine ⟨rfl, ?_⟩
  intro h
  obtain ⟨n, hn⟩ := h q52 rfl
  have hden : q52.den = ((n : ℚ)).den := congrArg Rat.den hn
  rw [Rat.den_natCast] at hden
  exact absurd hden (by decide)

/-- C8 amended: in the final script every resolved metric funnels
through `parseMetric`, so every present `likes`/`views`/`comments` value
is a non-negative integer; the earlier internal-API strategy offers no
such guarantee (see the counterexample). -/
theorem claim8_metrics_natural (d : Doc) (f : Faults) :
    IsNatQ (requestHandler d f).1.likes ∧ IsNatQ (requestHandler d f).1.views ∧
    IsNatQ (requestHandler d f).1.comments :=
  requestHandler_isNat d f

/-- Witness for C8: the likes value resolved from `1.2K likes` is the
natural number 1200. -/
theorem claim8_witness :
    (requestHandler ⟨"u", "https://www.instagram.com/reel/x", "1.2K likes",
        fun _ => []⟩ noFaults).1.likes = some (parseMetric "1.2K") ∧
    (∃ n : ℕ, parseMetric "1.2K" = (n : ℚ)) := by
  refine ⟨by decide, ?_⟩
  exact (claim8_metrics_natural
      ⟨"u", "https://www.instagram.com/reel/x", "1.2K likes", fun _ => []⟩
      noFaults).1 (parseMetric "1.2K") (by decide)
